import Mathlib

/-!
Verification of the SQL Forge query-tree-to-SQL compiler
(`src/app/components/types.ts`, sql-builder section).

The data model (`QueryNode`, `Condition`, `JoinClause`, `OrderByClause`,
`ColumnValuePair`) and the compiler (`buildSQL`, `buildSelect`, `buildInsert`,
`buildUpdate`, `buildDelete`, `buildWhereClause`, `resolveConditionValue`) are
shallowly embedded below.  TypeScript string-literal union types (`Operator`,
`LogicGate`, join types, order directions) are modelled as plain strings, since
the compiler only ever interpolates them or compares them against string
literals.  JavaScript string truthiness (`!s`, `s || d`) is modelled as
emptiness tests, `s.trim()` as `jsTrim`, `"  ".repeat(d)` as `indentStr d`,
`Array.prototype.join` as `joinSep`, and `String.prototype.split("\n")` as
`splitNl`.  The `subQueries` record is modelled as an association list with
`List.lookup` playing the role of the keyed property access.
-/

set_option maxHeartbeats 2000000
set_option maxRecDepth 4000

namespace SqlForge

inductive SQLOperation where
  | SELECT
  | INSERT
  | UPDATE
  | DELETE
deriving DecidableEq, Repr

structure Condition where
  id : String
  column : String
  operator : String
  value : String
  logic : String
  subQueryId : Option String
deriving DecidableEq, Repr

structure JoinClause where
  id : String
  type : String
  table : String
  onLeft : String
  onRight : String
deriving DecidableEq, Repr

structure OrderByClause where
  id : String
  column : String
  direction : String
deriving DecidableEq, Repr

structure ColumnValuePair where
  id : String
  column : String
  value : String
deriving DecidableEq, Repr

/-- A full query node (used for the main query and for nested subqueries).
`subQueries` is the record of child subquery nodes keyed by their id. -/
inductive QueryNode where
  | mk (id : String) (operation : SQLOperation) (table : String)
      (selectColumns : String) (pairs : List ColumnValuePair)
      (conditions : List Condition) (joins : List JoinClause)
      (orderBy : List OrderByClause) (limit : String)
      (subQueries : List (String × QueryNode))

def QueryNode.id : QueryNode → String
  | .mk i _ _ _ _ _ _ _ _ _ => i

def QueryNode.operation : QueryNode → SQLOperation
  | .mk _ op _ _ _ _ _ _ _ _ => op

def QueryNode.table : QueryNode → String
  | .mk _ _ t _ _ _ _ _ _ _ => t

def QueryNode.selectColumns : QueryNode → String
  | .mk _ _ _ c _ _ _ _ _ _ => c

def QueryNode.pairs : QueryNode → List ColumnValuePair
  | .mk _ _ _ _ p _ _ _ _ _ => p

def QueryNode.conditions : QueryNode → List Condition
  | .mk _ _ _ _ _ c _ _ _ _ => c

def QueryNode.joins : QueryNode → List JoinClause
  | .mk _ _ _ _ _ _ j _ _ _ => j

def QueryNode.orderBy : QueryNode → List OrderByClause
  | .mk _ _ _ _ _ _ _ o _ _ => o

def QueryNode.limit : QueryNode → String
  | .mk _ _ _ _ _ _ _ _ l _ => l

def QueryNode.subQueries : QueryNode → List (String × QueryNode)
  | .mk _ _ _ _ _ _ _ _ _ s => s

/-- The two-space indent unit `"  ".repeat(d)` of the source. -/
def indentStr : Nat → String
  | 0 => ""
  | d + 1 => "  " ++ indentStr d

/-- JavaScript array `join(sep)`. -/
def joinSep (sep : String) : List String → String
  | [] => ""
  | [s] => s
  | s :: rest => s ++ sep ++ joinSep sep rest

/-- Character-level model of JavaScript `String.prototype.split("\n")`. -/
def splitNlCh : List Char → List (List Char)
  | [] => [[]]
  | c :: r =>
    if c = '\n' then [] :: splitNlCh r
    else
      match splitNlCh r with
      | l :: ls => (c :: l) :: ls
      | [] => [[c]]

/-- JavaScript string `split` on newline. -/
def splitNl (s : String) : List String :=
  (splitNlCh s.data).map String.mk

/-- The re-indenting map `(l, i) => i === 0 ? l : pad + l` over split lines. -/
def reindentTail (pad : String) : List String → List String
  | [] => []
  | l :: ls => l :: ls.map (fun x => pad ++ x)

/-- JavaScript `String.prototype.trim()` (whitespace stripped at both ends). -/
def jsTrim (s : String) : String :=
  String.mk (((s.data.dropWhile Char.isWhitespace).reverse.dropWhile
    Char.isWhitespace).reverse)

/-- Membership test `["IS NULL", "IS NOT NULL"].includes(op)` of the source. -/
def isNullOp (op : String) : Bool :=
  op == "IS NULL" || op == "IS NOT NULL"

/-- Membership test `["EXISTS", "NOT EXISTS"].includes(op)` of the source. -/
def isExistsOp (op : String) : Bool :=
  op == "EXISTS" || op == "NOT EXISTS"

/-- JavaScript truthiness of the optional `subQueryId` field (`!!c.subQueryId`):
present and non-empty. -/
def condHasSub (c : Condition) : Bool :=
  match c.subQueryId with
  | some sid => sid != ""
  | none => false

/-- Column name with placeholder: `c.column || "column"`. -/
def colOf (c : Condition) : String :=
  if c.column = "" then "column" else c.column

/-- Accumulation `for (const j of node.joins)` in `buildSelect`: one
JOIN line per join with all three fields non-empty. -/
def renderJoins (indent : String) : List JoinClause → String
  | [] => ""
  | j :: rest =>
    (if j.table ≠ "" ∧ j.onLeft ≠ "" ∧ j.onRight ≠ "" then
      "\n" ++ indent ++ j.type ++ " JOIN " ++ j.table ++ " ON " ++ j.onLeft
        ++ " = " ++ j.onRight
    else "") ++ renderJoins indent rest

/-- The `ORDER BY` column list: `orderBy.filter(o => o.column).map(...).join(", ")`. -/
def orderByCols (orderBy : List OrderByClause) : String :=
  joinSep ", " ((orderBy.filter (fun o => o.column != "")).map
    (fun o => o.column ++ " " ++ o.direction))

/-- The parenthesis wrapping of a compiled subquery in
`resolveConditionValue`: the child's text (already compiled at `depth + 2`)
is split on newlines, every line except the first is re-indented by
`depth + 2` units, and the block is wrapped as
`(\n<depth+2 pad><lines>\n<depth+1 pad>)`. -/
def wrapSub (depth : Nat) (subSQL : String) : String :=
  "(\n" ++ indentStr (depth + 2)
    ++ joinSep "\n" (reindentTail (indentStr (depth + 2)) (splitNl subSQL))
    ++ "\n" ++ indentStr (depth + 1) ++ ")"

def sizeOf_subQueries_lt (n : QueryNode) : sizeOf n.subQueries < sizeOf n := by
  cases n
  simp [QueryNode.subQueries]

def sizeOf_lookup_lt {sid : String} {l : List (String × QueryNode)}
    {n : QueryNode} (h : List.lookup sid l = some n) : sizeOf n < sizeOf l := by
  induction l with
  | nil => simp [List.lookup] at h
  | cons p rest ih =>
    obtain ⟨k, v⟩ := p
    by_cases hk : sid == k
    · simp [List.lookup, hk] at h
      subst h
      simp
      omega
    · simp [List.lookup, hk] at h
      have := ih h
      simp
      omega

/-- Rendering of `INSERT INTO` (`buildInsert`); not recursive, never indented. -/
def buildInsert (node : QueryNode) : String :=
  if node.table = "" then "-- Please fill in the table name"
  else
    let filled := node.pairs.filter (fun p => p.column != "")
    if filled.isEmpty then "-- Add at least one column"
    else
      let cols := joinSep ", " (filled.map (fun p => p.column))
      let vals := joinSep ", " (filled.map (fun p => "'" ++ p.value ++ "'"))
      "INSERT INTO " ++ node.table ++ " (" ++ cols ++ ")\nVALUES (" ++ vals ++ ");"

mutual

/-- Compiler entry point `buildSQL(node, depth)`. -/
def buildSQL (node : QueryNode) (depth : Nat) : String :=
  let indent := indentStr depth
  let inner := indentStr (depth + 1)
  match node.operation with
  | .SELECT => buildSelect node depth indent inner
  | .INSERT => buildInsert node
  | .UPDATE => buildUpdate node depth indent inner
  | .DELETE => buildDelete node depth indent inner
termination_by (sizeOf node, 5)
decreasing_by
  all_goals (apply Prod.Lex.right; omega)

def buildSelect (node : QueryNode) (depth : Nat) (indent inner : String) : String :=
  if node.table = "" then indent ++ "-- Please fill in the table name"
  else
    let cols := if jsTrim node.selectColumns = "" then "*" else jsTrim node.selectColumns
    let sql := "SELECT " ++ cols ++ "\n" ++ indent ++ "FROM " ++ node.table
      ++ renderJoins indent node.joins
      ++ buildWhereClause node.conditions node.subQueries depth indent inner
    let sql := if node.orderBy.isEmpty then sql
      else if orderByCols node.orderBy = "" then sql
      else sql ++ "\n" ++ indent ++ "ORDER BY " ++ orderByCols node.orderBy
    let sql := if node.limit = "" then sql else sql ++ "\n" ++ indent ++ "LIMIT " ++ node.limit
    sql ++ ";"
termination_by (sizeOf node, 4)
decreasing_by
  apply Prod.Lex.left
  exact sizeOf_subQueries_lt node

def buildUpdate (node : QueryNode) (depth : Nat) (indent inner : String) : String :=
  if node.table = "" then indent ++ "-- Please fill in the table name"
  else
    let filled := node.pairs.filter (fun p => p.column != "")
    if filled.isEmpty then indent ++ "-- Add at least one SET column"
    else
      let sets := joinSep ",\n" (filled.map
        (fun p => inner ++ p.column ++ " = '" ++ p.value ++ "'"))
      "UPDATE " ++ node.table ++ "\n" ++ indent ++ "SET\n" ++ sets
        ++ buildWhereClause node.conditions node.subQueries depth indent inner ++ ";"
termination_by (sizeOf node, 4)
decreasing_by
  apply Prod.Lex.left
  exact sizeOf_subQueries_lt node

def buildDelete (node : QueryNode) (depth : Nat) (indent inner : String) : String :=
  if node.table = "" then indent ++ "-- Please fill in the table name"
  else
    "DELETE FROM " ++ node.table
      ++ buildWhereClause node.conditions node.subQueries depth indent inner ++ ";"
termination_by (sizeOf node, 4)
decreasing_by
  apply Prod.Lex.left
  exact sizeOf_subQueries_lt node

/-- The shared `WHERE` chain: empty for no conditions, otherwise
`\n<indent>WHERE <first clause>` with subsequent clauses prefixed by their
logic gate and joined by `\n<inner>`. -/
def buildWhereClause (conditions : List Condition)
    (subQueries : List (String × QueryNode)) (depth : Nat)
    (indent inner : String) : String :=
  match conditions with
  | [] => ""
  | c0 :: rest =>
    "\n" ++ indent ++ "WHERE "
      ++ joinSep ("\n" ++ inner)
        (buildCondClause c0 subQueries depth
          :: rest.map (fun c => c.logic ++ " " ++ buildCondClause c subQueries depth))
termination_by (sizeOf subQueries, 3)
decreasing_by
  all_goals (apply Prod.Lex.right; omega)

/-- The per-condition clause text (the body of the `conditions.map` in
`buildWhereClause`): EXISTS-family operators drop the column, NULL-family
operators drop the operand, a truthy `subQueryId` routes the operand through
`resolveConditionValue`, and anything else quotes the literal value. -/
def buildCondClause (c : Condition) (subQueries : List (String × QueryNode))
    (depth : Nat) : String :=
  if isExistsOp c.operator then
    c.operator ++ " " ++ resolveConditionValue c subQueries depth
  else if isNullOp c.operator then
    colOf c ++ " " ++ c.operator
  else if condHasSub c then
    colOf c ++ " " ++ c.operator ++ " " ++ resolveConditionValue c subQueries depth
  else
    colOf c ++ " " ++ c.operator ++ " '" ++ c.value ++ "'"
termination_by (sizeOf subQueries, 2)
decreasing_by
  all_goals (apply Prod.Lex.right; omega)

/-- Operand resolution (`resolveConditionValue`): a truthy `subQueryId` that resolves in the
`subQueries` record compiles the child at `depth + 2` and wraps it in
parentheses; everything else falls back to the quoted literal value. -/
def resolveConditionValue (c : Condition)
    (subQueries : List (String × QueryNode)) (depth : Nat) : String :=
  match c.subQueryId with
  | some sid =>
    if sid = "" then "'" ++ c.value ++ "'"
    else
      match hl : List.lookup sid subQueries with
      | some sub => wrapSub depth (buildSQL sub (depth + 2))
      | none => "'" ++ c.value ++ "'"
  | none => "'" ++ c.value ++ "'"
termination_by (sizeOf subQueries, 1)
decreasing_by
  apply Prod.Lex.left
  exact sizeOf_lookup_lt hl

end

/-- Blank test: every character of the string is whitespace. -/
def isWSOnly (s : String) : Bool := s.data.all Char.isWhitespace

/-- A condition whose operand is a subquery in the sense of the spec:
`subQueryId` set (truthy) and resolving in the given record. -/
def subResolvable (c : Condition) (subQueries : List (String × QueryNode)) : Bool :=
  match c.subQueryId with
  | some sid => sid != "" && (List.lookup sid subQueries).isSome
  | none => false

/-- Prefix test on character lists. -/
def isPrefixCh : List Char → List Char → Bool
  | [], _ => true
  | _ :: _, [] => false
  | a :: as, b :: bs => a == b && isPrefixCh as bs

/-- Occurrence of `pat` as a contiguous substring, on character lists. -/
def containsCh : List Char → List Char → Bool
  | pat, [] => isPrefixCh pat []
  | pat, c :: r => isPrefixCh pat (c :: r) || containsCh pat r

/-- Substring containment test on strings. -/
def strContains (s pat : String) : Bool := containsCh pat.data s.data

/-- Leading-space stripping of one line. -/
def stripLead (s : String) : String := String.mk (s.data.dropWhile (fun c => c = ' '))

/-- Lines of a compiled text, each stripped of its leading spaces. -/
def strippedLines (s : String) : List String := (splitNl s).map stripLead

/-- Normalisation removing the spaces that stand at a line start; the boolean
records whether the scan currently stands at a line start. -/
def stripLS : Bool → List Char → List Char
  | _, [] => []
  | b, c :: r =>
    if c = '\n' then '\n' :: stripLS true r
    else if c = ' ' then (if b then stripLS true r else ' ' :: stripLS false r)
    else c :: stripLS false r

/-- Line-start mode after scanning a character list. -/
def modeAfter : Bool → List Char → Bool
  | b, [] => b
  | b, c :: r => modeAfter (if c = '\n' then true else if c = ' ' then b else false) r

/-- Equality of two character lists up to the amount of leading space at
each line start, relative to a start mode, together with agreement of the
final mode. -/
def SLC (b : Bool) (x y : List Char) : Prop :=
  stripLS b x = stripLS b y ∧ modeAfter b x = modeAfter b y

/-- Mode-independent `SLC`. -/
def SLCA (x y : List Char) : Prop := ∀ b, SLC b x y

/-- String-level `SLC` at the line-start mode. -/
def SL (s t : String) : Prop := SLC true s.data t.data

/-- Insertion of a pad after every newline of a character list; this is what
the split/re-indent/join of `resolveConditionValue` amounts to. -/
def insPad (p : List Char) : List Char → List Char
  | [] => []
  | c :: r => if c = '\n' then c :: (p ++ insPad p r) else c :: insPad p r

/-- Characters the INSERT renderer emits besides the node fields. -/
def insertGlue : List Char :=
  ("-- Please fill in the table name" ++ "-- Add at least one column"
    ++ "INSERT INTO " ++ " (" ++ ", " ++ ")\nVALUES (" ++ "'" ++ ");").data

/-- Characters the SELECT/UPDATE/DELETE renderers emit besides the node
fields when the condition list is empty (indents are all spaces). -/
def clauseGlue : List Char :=
  ("-- Please fill in the table name" ++ "-- Add at least one SET column"
    ++ "SELECT " ++ "*" ++ "\n" ++ "FROM " ++ " JOIN " ++ " ON " ++ " = "
    ++ "ORDER BY " ++ ", " ++ "LIMIT " ++ "UPDATE " ++ "SET\n" ++ ",\n"
    ++ " = '" ++ "'" ++ "DELETE FROM " ++ ";" ++ " ").data

/-- Subquery node of the spec scenario E: `SELECT id FROM vip_customers`. -/
def vipNode : QueryNode :=
  QueryNode.mk "sq1" .SELECT "vip_customers" "id" [] [] [] [] "" []

/-- Scenario E of the spec: SELECT on orders with `status IS NULL` and
`OR customer_id IN (subquery)`. -/
def scenENode : QueryNode :=
  QueryNode.mk "root" .SELECT "orders" "*" []
    [Condition.mk "c1" "status" "IS NULL" "" "AND" none,
     Condition.mk "c2" "customer_id" "IN" "" "OR" (some "sq1")]
    [] [] "" [("sq1", vipNode)]

/-- A node with an empty table and every other field populated. -/
def emptyTableNode : QueryNode :=
  QueryNode.mk "w3" .SELECT "" "name, age"
    [ColumnValuePair.mk "p" "x" "1"]
    [Condition.mk "c" "a" "=" "1" "AND" none]
    [JoinClause.mk "j" "INNER" "t" "l" "r"]
    [OrderByClause.mk "o" "col" "ASC"] "10" []

/-- An INSERT node with a table but only empty-column pairs. -/
def insertEmptyPairsNode : QueryNode :=
  QueryNode.mk "w5a" .INSERT "users" "*"
    [ColumnValuePair.mk "p1" "" "v1", ColumnValuePair.mk "p2" "" "v2"]
    [] [] [] "" []

/-- An UPDATE node with a table but only empty-column pairs. -/
def updateEmptyPairsNode : QueryNode :=
  QueryNode.mk "w5b" .UPDATE "users" "*"
    [ColumnValuePair.mk "p1" "" "v"] [] [] [] "" []

/-- A SELECT node whose table and column list are whitespace only. -/
def wsNode : QueryNode := QueryNode.mk "w10" .SELECT " " "  " [] [] [] [] "" []

/-- An INSERT node carrying a pair column that spells a keyword, together
with populated conditions, joins, orderBy and limit. -/
def insertKeywordNode : QueryNode :=
  QueryNode.mk "x6" .INSERT "users" "*"
    [ColumnValuePair.mk "p" "WHERE" "v"]
    [Condition.mk "c" "a" "=" "1" "AND" none]
    [JoinClause.mk "j" "INNER" "t" "l" "r"]
    [OrderByClause.mk "o" "col" "ASC"] "10" []

/-- An INSERT node with keyword-free fields and populated conditions, joins,
orderBy and limit. -/
def insertCleanNode : QueryNode :=
  QueryNode.mk "w6" .INSERT "users" "*"
    [ColumnValuePair.mk "p" "name" "Ann"]
    [Condition.mk "c" "a" "=" "1" "AND" none]
    [JoinClause.mk "j" "INNER" "t" "l" "r"]
    [OrderByClause.mk "o" "col" "ASC"] "10" []

/-- A SELECT node with no conditions whose table spells `WHERE`. -/
def selectKeywordTableNode : QueryNode :=
  QueryNode.mk "x7" .SELECT "WHERE" "*" [] [] [] [] "" []

/-- A SELECT node with no conditions and `W`-free fields. -/
def selectCleanNode : QueryNode :=
  QueryNode.mk "w7" .SELECT "users" "name" [] []
    [JoinClause.mk "j" "INNER" "teams" "a" "b"]
    [OrderByClause.mk "o" "name" "ASC"] "5" []

/-- A SELECT node with an IS NULL condition carrying a dangling
`subQueryId` and a literal value. -/
def danglingNullNode : QueryNode :=
  QueryNode.mk "x9" .SELECT "t" "*" []
    [Condition.mk "c" "status" "IS NULL" "v" "AND" (some "ghost")] [] [] "" []

/-- An EXISTS condition with a dangling subquery reference. -/
def condExistsDangling : Condition := Condition.mk "cw1" "x" "EXISTS" "v" "AND" (some "g")

/-- An IS NULL condition without subquery reference. -/
def condNullPlain : Condition := Condition.mk "cw2" "status" "IS NULL" "" "AND" none

/-- An IN condition referencing the resolvable subquery id `sq1`. -/
def condInResolvable : Condition := Condition.mk "cw3" "customer_id" "IN" "" "OR" (some "sq1")

/-- A plain comparison condition with a literal operand. -/
def condGtLit : Condition := Condition.mk "cw4" "age" ">" "30" "AND" none

/-- An equality condition with a dangling subquery reference. -/
def condEqDangling : Condition := Condition.mk "cw5" "col" "=" "v" "AND" (some "g")

/-- An IS NULL condition with a dangling subquery reference and a value. -/
def condNullDangling : Condition := Condition.mk "cw6" "status" "IS NULL" "v" "AND" (some "g")

@[simp] theorem operation_mk (i : String) (op : SQLOperation) (t sc : String)
    (p : List ColumnValuePair) (c : List Condition) (j : List JoinClause)
    (o : List OrderByClause) (l : String) (s : List (String × QueryNode)) :
    (QueryNode.mk i op t sc p c j o l s).operation = op := rfl

@[simp] theorem table_mk (i : String) (op : SQLOperation) (t sc : String)
    (p : List ColumnValuePair) (c : List Condition) (j : List JoinClause)
    (o : List OrderByClause) (l : String) (s : List (String × QueryNode)) :
    (QueryNode.mk i op t sc p c j o l s).table = t := rfl

@[simp] theorem selectColumns_mk (i : String) (op : SQLOperation) (t sc : String)
    (p : List ColumnValuePair) (c : List Condition) (j : List JoinClause)
    (o : List OrderByClause) (l : String) (s : List (String × QueryNode)) :
    (QueryNode.mk i op t sc p c j o l s).selectColumns = sc := rfl

@[simp] theorem pairs_mk (i : String) (op : SQLOperation) (t sc : String)
    (p : List ColumnValuePair) (c : List Condition) (j : List JoinClause)
    (o : List OrderByClause) (l : String) (s : List (String × QueryNode)) :
    (QueryNode.mk i op t sc p c j o l s).pairs = p := rfl

@[simp] theorem conditions_mk (i : String) (op : SQLOperation) (t sc : String)
    (p : List ColumnValuePair) (c : List Condition) (j : List JoinClause)
    (o : List OrderByClause) (l : String) (s : List (String × QueryNode)) :
    (QueryNode.mk i op t sc p c j o l s).conditions = c := rfl

@[simp] theorem joins_mk (i : String) (op : SQLOperation) (t sc : String)
    (p : List ColumnValuePair) (c : List Condition) (j : List JoinClause)
    (o : List OrderByClause) (l : String) (s : List (String × QueryNode)) :
    (QueryNode.mk i op t sc p c j o l s).joins = j := rfl

@[simp] theorem orderBy_mk (i : String) (op : SQLOperation) (t sc : String)
    (p : List ColumnValuePair) (c : List Condition) (j : List JoinClause)
    (o : List OrderByClause) (l : String) (s : List (String × QueryNode)) :
    (QueryNode.mk i op t sc p c j o l s).orderBy = o := rfl

@[simp] theorem limit_mk (i : String) (op : SQLOperation) (t sc : String)
    (p : List ColumnValuePair) (c : List Condition) (j : List JoinClause)
    (o : List OrderByClause) (l : String) (s : List (String × QueryNode)) :
    (QueryNode.mk i op t sc p c j o l s).limit = l := rfl

@[simp] theorem subQueries_mk (i : String) (op : SQLOperation) (t sc : String)
    (p : List ColumnValuePair) (c : List Condition) (j : List JoinClause)
    (o : List OrderByClause) (l : String) (s : List (String × QueryNode)) :
    (QueryNode.mk i op t sc p c j o l s).subQueries = s := rfl

theorem str_empty_iff (s : String) : s = "" ↔ s.data = [] := String.ext_iff

theorem append_ne_empty_of_right {a b : String} (h : b ≠ "") : a ++ b ≠ "" := by
  intro hc
  apply h
  have h2 := congrArg String.data hc
  rw [String.data_append] at h2
  exact String.ext (List.append_eq_nil.mp h2).2

theorem append_ne_empty_of_left {a b : String} (h : a ≠ "") : a ++ b ≠ "" := by
  intro hc
  apply h
  have h2 := congrArg String.data hc
  rw [String.data_append] at h2
  exact String.ext (List.append_eq_nil.mp h2).1

theorem buildInsert_ne (n : QueryNode) : buildInsert n ≠ "" := by
  simp only [buildInsert]
  split
  · decide
  · split
    · decide
    · exact append_ne_empty_of_right (by decide)

theorem buildSelect_ne (n : QueryNode) (d : Nat) (i1 i2 : String) :
    buildSelect n d i1 i2 ≠ "" := by
  simp only [buildSelect]
  split
  · exact append_ne_empty_of_right (by decide)
  · exact append_ne_empty_of_right (by decide)

theorem buildUpdate_ne (n : QueryNode) (d : Nat) (i1 i2 : String) :
    buildUpdate n d i1 i2 ≠ "" := by
  simp only [buildUpdate]
  split
  · exact append_ne_empty_of_right (by decide)
  · split
    · exact append_ne_empty_of_right (by decide)
    · exact append_ne_empty_of_right (by decide)

theorem buildDelete_ne (n : QueryNode) (d : Nat) (i1 i2 : String) :
    buildDelete n d i1 i2 ≠ "" := by
  simp only [buildDelete]
  split
  · exact append_ne_empty_of_right (by decide)
  · exact append_ne_empty_of_right (by decide)

/-- C2: for every (finite, acyclic by construction) `QueryNode` and every
depth, `compile` is a total function: `buildSQL` is defined for all inputs
(its recursion, visible in the definition, descends only into children
looked up in the node's `subQueries` record) and always returns a string,
which is moreover never empty.  Totality and absence of an error channel are
witnessed by the fact that `buildSQL` is a Lean function into `String`. -/
theorem compile_total_nonempty (n : QueryNode) (d : Nat) : buildSQL n d ≠ "" := by
  simp only [buildSQL]
  cases n.operation
  · exact buildSelect_ne n d (indentStr d) (indentStr (d + 1))
  · exact buildInsert_ne n
  · exact buildUpdate_ne n d (indentStr d) (indentStr (d + 1))
  · exact buildDelete_ne n d (indentStr d) (indentStr (d + 1))

/-- C3: whenever `table` is the empty string, `compile` returns exactly the
comment `-- Please fill in the table name` regardless of every other field
and of the depth: prefixed by the depth indent for SELECT/UPDATE/DELETE and
unindented for INSERT (whose renderer carries no indent parameter). -/
theorem empty_table_placeholder (n : QueryNode) (d : Nat) (h : n.table = "") :
    buildSQL n d =
      if n.operation = SQLOperation.INSERT then "-- Please fill in the table name"
      else indentStr d ++ "-- Please fill in the table name" := by
  simp only [buildSQL]
  cases hop : n.operation
  · simp [buildSelect, h, hop]
  · simp [buildInsert, h, hop]
  · simp [buildUpdate, h, hop]
  · simp [buildDelete, h, hop]

theorem empty_table_placeholder_witness :
    QueryNode.table emptyTableNode = "" ∧
    buildSQL emptyTableNode 1 = "  -- Please fill in the table name" := by
  refine ⟨rfl, ?_⟩
  rw [empty_table_placeholder emptyTableNode 1 rfl]
  simp [emptyTableNode, indentStr]

/-- C5: an INSERT or UPDATE node with a non-empty table in which every pair
has an empty column (in particular an empty pair list) compiles to exactly
the corresponding placeholder comment: `-- Add at least one column` for
INSERT (unindented, as the INSERT renderer is), and
`-- Add at least one SET column` at the node's indent for UPDATE. -/
theorem insert_update_empty_pairs_placeholder (n : QueryNode) (d : Nat)
    (ht : n.table ≠ "") (hp : ∀ p ∈ n.pairs, p.column = "") :
    (n.operation = SQLOperation.INSERT → buildSQL n d = "-- Add at least one column") ∧
    (n.operation = SQLOperation.UPDATE →
      buildSQL n d = indentStr d ++ "-- Add at least one SET column") := by
  have hfil : n.pairs.filter (fun p => p.column != "") = [] := by
    rw [List.filter_eq_nil_iff]
    intro p hpm
    simp [hp p hpm]
  constructor
  · intro hop
    simp [buildSQL, hop, buildInsert, ht, hfil]
  · intro hop
    simp [buildSQL, hop, buildUpdate, ht, hfil]

theorem insert_update_empty_pairs_placeholder_witness :
    (QueryNode.table insertEmptyPairsNode ≠ "" ∧
      buildSQL insertEmptyPairsNode 0 = "-- Add at least one column") ∧
    (QueryNode.table updateEmptyPairsNode ≠ "" ∧
      buildSQL updateEmptyPairsNode 3 = "      -- Add at least one SET column") := by
  constructor
  · refine ⟨by decide, ?_⟩
    exact (insert_update_empty_pairs_placeholder insertEmptyPairsNode 0 (by decide)
      (by decide)).1 rfl
  · refine ⟨by decide, ?_⟩
    have h2 := (insert_update_empty_pairs_placeholder updateEmptyPairsNode 3 (by decide)
      (by decide)).2 rfl
    rw [h2]
    decide

theorem shift_lit {a b c : String} (h : a ++ b = c) (X : String) :
    a ++ (b ++ X) = c ++ X := by
  rw [← String.append_assoc, h]

theorem quote_merge (X : String) : (" " : String) ++ ("'" ++ X) = " '" ++ X :=
  shift_lit rfl X

theorem resolve_dangling {c : Condition} {sq : List (String × QueryNode)}
    {d : Nat} {sid : String} (hsid : c.subQueryId = some sid)
    (hlk : List.lookup sid sq = none) :
    resolveConditionValue c sq d = "'" ++ c.value ++ "'" := by
  by_cases hne : sid = ""
  · simp [resolveConditionValue, hsid, hne]
  · simp only [resolveConditionValue, hsid, hne, if_false]
    split
    · rename_i sub heq
      rw [hlk] at heq
      cases heq
    · rfl

theorem resolve_found {c : Condition} {sq : List (String × QueryNode)}
    {d : Nat} {sid : String} {sub : QueryNode} (hsid : c.subQueryId = some sid)
    (hne : sid ≠ "") (hlk : List.lookup sid sq = some sub) :
    resolveConditionValue c sq d = wrapSub d (buildSQL sub (d + 2)) := by
  simp only [resolveConditionValue, hsid, hne, if_false]
  split
  · rename_i sub2 heq
    rw [hlk] at heq
    cases heq
    rfl
  · rename_i heq
    rw [hlk] at heq
    cases heq

/-- C4: the operator partition of a rendered condition clause.
EXISTS/NOT EXISTS render `<operator> <operand>` with no column;
IS NULL/IS NOT NULL render `<column> <operator>` with no operand; a
condition with a set (truthy) and resolvable `subQueryId` renders
`<column> <operator> <wrapped subquery>`; every other condition renders
`<column> <operator> '<value>'`, with the literal word `column`
substituted when the column field is empty (inside `colOf`). -/
theorem where_clause_operator_partition (c : Condition)
    (sq : List (String × QueryNode)) (d : Nat) :
    (isExistsOp c.operator = true →
      buildCondClause c sq d = c.operator ++ " " ++ resolveConditionValue c sq d) ∧
    (isExistsOp c.operator = false → isNullOp c.operator = true →
      buildCondClause c sq d = colOf c ++ " " ++ c.operator) ∧
    (∀ sid sub, isExistsOp c.operator = false → isNullOp c.operator = false →
      c.subQueryId = some sid → sid ≠ "" → List.lookup sid sq = some sub →
      buildCondClause c sq d =
        colOf c ++ " " ++ c.operator ++ " " ++ wrapSub d (buildSQL sub (d + 2))) ∧
    (isExistsOp c.operator = false → isNullOp c.operator = false →
      subResolvable c sq = false →
      buildCondClause c sq d =
        colOf c ++ " " ++ c.operator ++ " '" ++ c.value ++ "'") := by
  refine ⟨?_, ?_, ?_, ?_⟩
  · intro hex
    simp [buildCondClause, hex]
  · intro hex hnull
    simp [buildCondClause, hex, hnull]
  · intro sid sub hex hnull hsid hne hlk
    have hhas : condHasSub c = true := by simp [condHasSub, hsid, hne]
    simp only [buildCondClause, hex, hnull, hhas, Bool.false_eq_true, if_false, if_true,
      resolve_found hsid hne hlk]
  · intro hex hnull hres
    by_cases hhas : condHasSub c = true
    · obtain ⟨sid, hsid, hne⟩ : ∃ sid, c.subQueryId = some sid ∧ sid ≠ "" := by
        cases hq : c.subQueryId with
        | none => simp [condHasSub, hq] at hhas
        | some sid => exact ⟨sid, rfl, by simpa [condHasSub, hq] using hhas⟩
      have hlk : List.lookup sid sq = none := by
        cases hl : List.lookup sid sq with
        | none => rfl
        | some sub => simp [subResolvable, hsid, hne, hl] at hres
      simp only [buildCondClause, hex, hnull, hhas, Bool.false_eq_true, if_false, if_true,
        resolve_dangling hsid hlk]
      simp only [String.append_assoc, quote_merge]
    · simp [buildCondClause, hex, hnull, hhas]

theorem where_clause_operator_partition_witness :
    buildCondClause condExistsDangling [] 0 = "EXISTS 'v'" ∧
    buildCondClause condNullPlain [] 0 = "status IS NULL" ∧
    buildCondClause condInResolvable [("sq1", vipNode)] 0
      = "customer_id IN " ++ wrapSub 0 (buildSQL vipNode 2) ∧
    buildCondClause condGtLit [] 0 = "age > '30'" := by
  refine ⟨?_, ?_, ?_, ?_⟩
  · rw [(where_clause_operator_partition condExistsDangling [] 0).1 (by decide)]
    rw [@resolve_dangling condExistsDangling [] 0 "g" rfl rfl]
    decide
  · rw [((where_clause_operator_partition condNullPlain [] 0).2.1 (by decide) (by decide))]
    decide
  · rw [((where_clause_operator_partition condInResolvable [("sq1", vipNode)] 0).2.2.1
      "sq1" vipNode (by decide) (by decide) rfl (by decide) rfl)]
    simp [colOf, condInResolvable]
  · rw [((where_clause_operator_partition condGtLit [] 0).2.2.2 (by decide) (by decide)
      (by decide))]
    decide

/-- C9 counterexample: an IS NULL condition with a dangling `subQueryId`
and value `v` does not render as `<column> <operator> '<value>'` (which
would read `status IS NULL 'v'`); the compiled query instead drops the
operand entirely. -/
theorem dangling_subquery_null_op_counterexample :
    buildSQL danglingNullNode 0 = "SELECT *\nFROM t\nWHERE status IS NULL;" ∧
    strContains (buildSQL danglingNullNode 0) "IS NULL 'v'" = false := by
  have h : buildSQL danglingNullNode 0 = "SELECT *\nFROM t\nWHERE status IS NULL;" := by
    simp +decide [danglingNullNode, buildSQL, buildSelect, buildWhereClause, buildCondClause,
      resolveConditionValue, renderJoins, jsTrim, indentStr, orderByCols, joinSep, colOf,
      condHasSub, isNullOp, isExistsOp, List.lookup]
  refine ⟨h, ?_⟩
  rw [h]
  decide

/-- C9 amended: a condition whose `subQueryId` is set but dangling (no
matching key in `subQueries`) never fails: the guarded lookup falls back to
the quoted literal, rendering `<operator> '<value>'` for EXISTS/NOT EXISTS
and `<column> <operator> '<value>'` for the remaining operators that take an
operand, while IS NULL/IS NOT NULL render `<column> <operator>` with no
operand as they always do. -/
theorem dangling_subquery_fallback (c : Condition) (sq : List (String × QueryNode))
    (d : Nat) (sid : String) (hsid : c.subQueryId = some sid)
    (hlk : List.lookup sid sq = none) :
    (isExistsOp c.operator = true →
      buildCondClause c sq d = c.operator ++ " '" ++ c.value ++ "'") ∧
    (isExistsOp c.operator = false → isNullOp c.operator = true →
      buildCondClause c sq d = colOf c ++ " " ++ c.operator) ∧
    (isExistsOp c.operator = false → isNullOp c.operator = false →
      buildCondClause c sq d = colOf c ++ " " ++ c.operator ++ " '" ++ c.value ++ "'") := by
  refine ⟨?_, ?_, ?_⟩
  · intro hex
    simp only [buildCondClause, hex, if_true, resolve_dangling hsid hlk]
    simp only [String.append_assoc, quote_merge]
  · intro hex hnull
    simp [buildCondClause, hex, hnull]
  · intro hex hnull
    by_cases hhas : condHasSub c = true
    · simp only [buildCondClause, hex, hnull, hhas, Bool.false_eq_true, if_false, if_true,
        resolve_dangling hsid hlk]
      simp only [String.append_assoc, quote_merge]
    · simp [buildCondClause, hex, hnull, hhas]

theorem dangling_subquery_fallback_witness :
    buildCondClause condEqDangling [] 0 = "col = 'v'" ∧
    buildCondClause condNullDangling [] 0 = "status IS NULL" := by
  constructor
  · rw [(dangling_subquery_fallback condEqDangling [] 0 "g" rfl rfl).2.2 (by decide)
      (by decide)]
    decide
  · rw [(dangling_subquery_fallback condNullDangling [] 0 "g" rfl rfl).2.1 (by decide)
      (by decide)]
    decide

theorem jsTrim_of_ws {s : String} (h : isWSOnly s = true) : jsTrim s = "" := by
  simp only [isWSOnly, List.all_eq_true] at h
  have hdw : s.data.dropWhile Char.isWhitespace = [] := by
    rw [List.dropWhile_eq_nil_iff]
    intro x hx
    exact h x hx
  simp [jsTrim, hdw]

/-- C10: blank detection is asymmetric at the SELECT interface: a
whitespace-only `selectColumns` is blank (it is trimmed before the
`|| "*"` default, so the column list renders as `*`), while a
whitespace-only non-empty `table` is treated as filled (only `table === ""`
is falsy): the output is not the table placeholder but
`SELECT *` newline `FROM ` followed by the whitespace verbatim. -/
theorem blank_table_vs_columns_asymmetry (n : QueryNode) (d : Nat)
    (hop : n.operation = SQLOperation.SELECT) (ht : n.table ≠ "")
    (_htw : isWSOnly n.table = true) (hcw : isWSOnly n.selectColumns = true) :
    (∃ rest, buildSQL n d = "SELECT *\n" ++ indentStr d ++ "FROM " ++ n.table ++ rest) ∧
    buildSQL n d ≠ indentStr d ++ "-- Please fill in the table name" := by
  have hmain : ∃ rest, buildSQL n d
      = "SELECT *\n" ++ indentStr d ++ "FROM " ++ n.table ++ rest := by
    simp only [buildSQL, hop, buildSelect, ht, if_false, jsTrim_of_ws hcw, if_true]
    have base : ∀ tail : String,
        "SELECT " ++ "*" ++ "\n" ++ indentStr d ++ "FROM " ++ n.table
            ++ renderJoins (indentStr d) n.joins
            ++ buildWhereClause n.conditions n.subQueries d (indentStr d) (indentStr (d + 1))
            ++ tail
          = "SELECT *\n" ++ indentStr d ++ "FROM " ++ n.table
            ++ (renderJoins (indentStr d) n.joins
              ++ buildWhereClause n.conditions n.subQueries d (indentStr d) (indentStr (d + 1))
              ++ tail) := by
      intro tail
      simp only [String.append_assoc]
      rw [shift_lit (show ("SELECT " : String) ++ "*" = "SELECT *" from rfl),
        shift_lit (show ("SELECT *" : String) ++ "\n" = "SELECT *\n" from rfl)]
    split
    · split
      · exact ⟨_, base ";"⟩
      · split
        · exact ⟨_, base ";"⟩
        · exact ⟨_, by
            simp only [String.append_assoc]
            rw [shift_lit (show ("SELECT " : String) ++ "*" = "SELECT *" from rfl),
              shift_lit (show ("SELECT *" : String) ++ "\n" = "SELECT *\n" from rfl)]⟩
    · split
      · exact ⟨_, by
          simp only [String.append_assoc]
          rw [shift_lit (show ("SELECT " : String) ++ "*" = "SELECT *" from rfl),
            shift_lit (show ("SELECT *" : String) ++ "\n" = "SELECT *\n" from rfl)]⟩
      · split
        · exact ⟨_, by
            simp only [String.append_assoc]
            rw [shift_lit (show ("SELECT " : String) ++ "*" = "SELECT *" from rfl),
              shift_lit (show ("SELECT *" : String) ++ "\n" = "SELECT *\n" from rfl)]⟩
        · exact ⟨_, by
            simp only [String.append_assoc]
            rw [shift_lit (show ("SELECT " : String) ++ "*" = "SELECT *" from rfl),
              shift_lit (show ("SELECT *" : String) ++ "\n" = "SELECT *\n" from rfl)]⟩
  refine ⟨hmain, ?_⟩
  obtain ⟨rest, hrest⟩ := hmain
  intro heq
  rw [hrest] at heq
  have hd := congrArg String.data heq
  simp only [String.data_append] at hd
  cases d with
  | zero =>
    simp only [indentStr] at hd
    simp at hd
  | succ k =>
    rw [show indentStr (k + 1) = "  " ++ indentStr k from rfl] at hd
    simp only [String.data_append] at hd
    simp at hd

theorem blank_table_vs_columns_asymmetry_witness :
    buildSQL wsNode 0 ≠ indentStr 0 ++ "-- Please fill in the table name" ∧
    buildSQL wsNode 0 = "SELECT *\nFROM  ;" := by
  constructor
  · exact (blank_table_vs_columns_asymmetry wsNode 0 rfl (by decide) (by decide)
      (by decide)).2
  · simp +decide [wsNode, buildSQL, buildSelect, buildWhereClause, renderJoins, jsTrim,
      indentStr, orderByCols, joinSep]

/-- C1 counterexample: in the spec's scenario E (SELECT on `orders` with
`status IS NULL` and `OR customer_id IN (subquery SELECT id FROM
vip_customers)`) compiled at depth 0, the exact text
`WHERE status IS NULL\nOR customer_id IN (\n  SELECT id\n  FROM
vip_customers\n);` does not occur in the output: the `OR` continuation line
is indented one unit, the subquery lines carry deeper indentation (the
child's own depth-2 base indent plus the re-indent pad), the child's
trailing semicolon is kept, and the closing parenthesis is indented. -/
theorem scenarioE_claimed_text_not_contained :
    strContains (buildSQL scenENode 0)
      "WHERE status IS NULL\nOR customer_id IN (\n  SELECT id\n  FROM vip_customers\n);"
      = false := by
  have h : buildSQL scenENode 0
      = "SELECT *\nFROM orders\nWHERE status IS NULL\n  OR customer_id IN (\n    SELECT id\n        FROM vip_customers;\n  );" := by
    simp +decide [scenENode, vipNode, buildSQL, buildSelect, buildWhereClause,
      buildCondClause, resolveConditionValue, wrapSub, renderJoins, jsTrim, indentStr,
      orderByCols, joinSep, splitNl, splitNlCh, reindentTail, colOf, condHasSub,
      isNullOp, isExistsOp, List.lookup]
  rw [h]
  decide

/-- C1 amended: a condition with operator IN and an attached resolvable
subquery renders as `<column> IN ` followed by `wrapSub`: an opening `(`,
a newline, the child compiled at `depth + 2` with every line but the first
re-indented by `depth + 2` units, a newline and a `)` at `depth + 1`; in
particular scenario E at depth 0 compiles to `SELECT *\nFROM orders\nWHERE
status IS NULL\n  OR customer_id IN (\n    SELECT id\n        FROM
vip_customers;\n  );` (the `OR` continuation sits at the inner indent, the
wrapped child keeps its own base indent under the re-indent pad as well as
its trailing semicolon, and the closing `)` sits at depth 1 before the outer
semicolon). -/
theorem in_subquery_wrapping (c : Condition) (sq : List (String × QueryNode))
    (d : Nat) (sid : String) (sub : QueryNode) (hop : c.operator = "IN")
    (hsid : c.subQueryId = some sid) (hne : sid ≠ "")
    (hlk : List.lookup sid sq = some sub) :
    buildCondClause c sq d = colOf c ++ " IN " ++ wrapSub d (buildSQL sub (d + 2)) ∧
    buildSQL scenENode 0
      = "SELECT *\nFROM orders\nWHERE status IS NULL\n  OR customer_id IN (\n    SELECT id\n        FROM vip_customers;\n  );" := by
  constructor
  · have hhas : condHasSub c = true := by simp [condHasSub, hsid, hne]
    simp only [buildCondClause, hop, resolve_found hsid hne hlk, hhas,
      show isExistsOp "IN" = false from by decide,
      show isNullOp "IN" = false from by decide, Bool.false_eq_true, if_false, if_true]
    simp only [String.append_assoc]
    rw [shift_lit (show (" " : String) ++ "IN" = " IN" from rfl),
      shift_lit (show (" IN" : String) ++ " " = " IN " from rfl)]
  · simp +decide [scenENode, vipNode, buildSQL, buildSelect, buildWhereClause,
      buildCondClause, resolveConditionValue, wrapSub, renderJoins, jsTrim, indentStr,
      orderByCols, joinSep, splitNl, splitNlCh, reindentTail, colOf, condHasSub,
      isNullOp, isExistsOp, List.lookup]

theorem in_subquery_wrapping_witness :
    buildCondClause condInResolvable [("sq1", vipNode)] 1
      = "customer_id IN " ++ wrapSub 1 (buildSQL vipNode 3) := by
  have h := (in_subquery_wrapping condInResolvable [("sq1", vipNode)] 1 "sq1" vipNode
    rfl rfl (by decide) rfl).1
  rw [h]
  simp [colOf, condInResolvable]

theorem isPrefixCh_mem {pat s : List Char} (h : isPrefixCh pat s = true) :
    ∀ ch ∈ pat, ch ∈ s := by
  induction pat generalizing s with
  | nil => intro ch hch; cases hch
  | cons a as ih =>
    cases s with
    | nil => simp [isPrefixCh] at h
    | cons b bs =>
      simp only [isPrefixCh, Bool.and_eq_true, beq_iff_eq] at h
      intro ch hch
      rcases List.mem_cons.mp hch with hch | hch
      · subst hch
        rw [h.1]
        exact List.mem_cons_self b bs
      · exact List.mem_cons_of_mem b (ih h.2 ch hch)

theorem containsCh_mem {pat s : List Char} (h : containsCh pat s = true) :
    ∀ ch ∈ pat, ch ∈ s := by
  induction s with
  | nil =>
    simp only [containsCh] at h
    exact isPrefixCh_mem h
  | cons b bs ih =>
    simp only [containsCh, Bool.or_eq_true] at h
    rcases h with h | h
    · exact isPrefixCh_mem h
    · intro ch hch
      exact List.mem_cons_of_mem b (ih h ch hch)

theorem strContains_false_of_not_mem {s pat : String} {ch : Char}
    (hin : ch ∈ pat.data) (hout : ch ∉ s.data) : strContains s pat = false := by
  cases h : containsCh pat.data s.data with
  | false => exact h
  | true => exact absurd (containsCh_mem h ch hin) hout

theorem mem_of_forall_mem {α : Type} {l g : List α} (hall : ∀ c ∈ l, c ∈ g)
    {ch : α} (hm : ch ∈ l) : ch ∈ g := hall ch hm

theorem mem_indentStr {ch : Char} {d : Nat} (h : ch ∈ (indentStr d).data) : ch = ' ' := by
  induction d with
  | zero => cases h
  | succ k ih =>
    rw [show indentStr (k + 1) = "  " ++ indentStr k from rfl, String.data_append] at h
    rcases List.mem_append.mp h with h | h
    · rcases List.mem_cons.mp h with h | h
      · exact h
      · rcases List.mem_cons.mp h with h | h
        · exact h
        · cases h
    · exact ih h

theorem mem_jsTrim {ch : Char} {s : String} (h : ch ∈ (jsTrim s).data) : ch ∈ s.data := by
  simp only [jsTrim] at h
  rw [List.mem_reverse] at h
  have h1 := (List.dropWhile_sublist Char.isWhitespace).mem h
  rw [List.mem_reverse] at h1
  exact (List.dropWhile_sublist Char.isWhitespace).mem h1

theorem mem_joinSep {ch : Char} {sep : String} {l : List String}
    (h : ch ∈ (joinSep sep l).data) :
    ch ∈ sep.data ∨ ∃ s ∈ l, ch ∈ s.data := by
  induction l with
  | nil => cases h
  | cons s rest ih =>
    cases rest with
    | nil =>
      exact Or.inr ⟨s, List.mem_cons_self s [], by simpa [joinSep] using h⟩
    | cons t ts =>
      rw [show joinSep sep (s :: t :: ts) = s ++ sep ++ joinSep sep (t :: ts) from rfl,
        String.data_append, String.data_append] at h
      rcases List.mem_append.mp h with h | h
      · rcases List.mem_append.mp h with h | h
        · exact Or.inr ⟨s, List.mem_cons_self s (t :: ts), h⟩
        · exact Or.inl h
      · rcases ih h with h | ⟨u, hu, hcu⟩
        · exact Or.inl h
        · exact Or.inr ⟨u, List.mem_cons_of_mem s hu, hcu⟩

theorem mem_renderJoins {ch : Char} {ind : String} {js : List JoinClause}
    (hind : ∀ c ∈ ind.data, c = ' ') (h : ch ∈ (renderJoins ind js).data) :
    ch ∈ clauseGlue ∨ ∃ j ∈ js, ch ∈ j.type.data ∨ ch ∈ j.table.data
      ∨ ch ∈ j.onLeft.data ∨ ch ∈ j.onRight.data := by
  induction js with
  | nil => cases h
  | cons j rest ih =>
    rw [show renderJoins ind (j :: rest)
      = (if j.table ≠ "" ∧ j.onLeft ≠ "" ∧ j.onRight ≠ "" then
          "\n" ++ ind ++ j.type ++ " JOIN " ++ j.table ++ " ON " ++ j.onLeft
            ++ " = " ++ j.onRight
        else "") ++ renderJoins ind rest from rfl, String.data_append] at h
    rcases List.mem_append.mp h with h | h
    · split at h
      · simp only [String.data_append, List.mem_append] at h
        rcases h with ((((((((h | h) | h) | h) | h) | h) | h) | h) | h)
        · exact Or.inl (mem_of_forall_mem (by decide) h)
        · have hsp := hind ch h
          exact Or.inl (by rw [hsp]; decide)
        · exact Or.inr ⟨j, List.mem_cons_self j rest, Or.inl h⟩
        · exact Or.inl (mem_of_forall_mem (by decide) h)
        · exact Or.inr ⟨j, List.mem_cons_self j rest, Or.inr (Or.inl h)⟩
        · exact Or.inl (mem_of_forall_mem (by decide) h)
        · exact Or.inr ⟨j, List.mem_cons_self j rest, Or.inr (Or.inr (Or.inl h))⟩
        · exact Or.inl (mem_of_forall_mem (by decide) h)
        · exact Or.inr ⟨j, List.mem_cons_self j rest, Or.inr (Or.inr (Or.inr h))⟩
      · cases h
    · rcases ih h with h | ⟨u, hu, hcu⟩
      · exact Or.inl h
      · exact Or.inr ⟨u, List.mem_cons_of_mem j hu, hcu⟩

theorem mem_buildInsert {n : QueryNode} {ch : Char} (h : ch ∈ (buildInsert n).data) :
    ch ∈ insertGlue ∨ ch ∈ n.table.data
      ∨ ∃ p ∈ n.pairs, ch ∈ p.column.data ∨ ch ∈ p.value.data := by
  simp only [buildInsert] at h
  split at h
  · exact Or.inl (mem_of_forall_mem (by decide) h)
  · split at h
    · exact Or.inl (mem_of_forall_mem (by decide) h)
    · simp only [String.data_append, List.mem_append] at h
      rcases h with ((((((h | h) | h) | h) | h) | h) | h)
      · exact Or.inl (mem_of_forall_mem (by decide) h)
      · exact Or.inr (Or.inl h)
      · exact Or.inl (mem_of_forall_mem (by decide) h)
      · rcases mem_joinSep h with h | ⟨s, hs, hcs⟩
        · exact Or.inl (mem_of_forall_mem (by decide) h)
        · rcases List.mem_map.mp hs with ⟨p, hp, rfl⟩
          exact Or.inr (Or.inr ⟨p, List.mem_of_mem_filter hp, Or.inl hcs⟩)
      · exact Or.inl (mem_of_forall_mem (by decide) h)
      · rcases mem_joinSep h with h | ⟨s, hs, hcs⟩
        · exact Or.inl (mem_of_forall_mem (by decide) h)
        · rcases List.mem_map.mp hs with ⟨p, hp, rfl⟩
          simp only [String.data_append, List.mem_append] at hcs
          rcases hcs with (hcs | hcs) | hcs
          · exact Or.inl (mem_of_forall_mem (by decide) hcs)
          · exact Or.inr (Or.inr ⟨p, List.mem_of_mem_filter hp, Or.inr hcs⟩)
          · exact Or.inl (mem_of_forall_mem (by decide) hcs)
      · exact Or.inl (mem_of_forall_mem (by decide) h)

/-- C6 counterexample: an INSERT node satisfying all of the claim's
hypotheses (non-empty table, a filled pair, non-empty conditions, joins,
orderBy and limit) whose pair column spells `WHERE`: the compiled output
contains `WHERE`, falsifying the claim as stated. -/
theorem insert_ignores_clauses_counterexample :
    QueryNode.conditions insertKeywordNode ≠ [] ∧
    QueryNode.joins insertKeywordNode ≠ [] ∧
    QueryNode.orderBy insertKeywordNode ≠ [] ∧
    QueryNode.limit insertKeywordNode ≠ "" ∧
    buildSQL insertKeywordNode 0 = "INSERT INTO users (WHERE)\nVALUES ('v');" ∧
    strContains (buildSQL insertKeywordNode 0) "WHERE" = true := by
  have h : buildSQL insertKeywordNode 0 = "INSERT INTO users (WHERE)\nVALUES ('v');" := by
    simp +decide [insertKeywordNode, buildSQL, buildInsert, joinSep]
  exact ⟨by simp [insertKeywordNode], by simp [insertKeywordNode],
    by simp [insertKeywordNode], by simp [insertKeywordNode], h, by rw [h]; decide⟩

/-- C6 amended: an INSERT node with non-empty table, at least one filled
pair and non-empty conditions, joins, orderBy and limit fields compiles to
output containing none of `WHERE`, `JOIN`, `ORDER BY`, `LIMIT` - provided
none of the letters `W`, `J`, `B`, `M` occurs in the node's own table or
pair fields (the INSERT renderer itself never emits those letters; without
this proviso a field spelling a keyword lands in the output verbatim). -/
theorem insert_ignores_clauses_amended (n : QueryNode) (d : Nat)
    (hop : n.operation = SQLOperation.INSERT)
    (_ht : n.table ≠ "") (_hp : ∃ p ∈ n.pairs, p.column ≠ "")
    (_hcnd : n.conditions ≠ []) (_hj : n.joins ≠ []) (_hob : n.orderBy ≠ [])
    (_hlim : n.limit ≠ "")
    (hclean : ∀ ch ∈ (['W', 'J', 'B', 'M'] : List Char),
      ch ∉ n.table.data ∧ ∀ p ∈ n.pairs, ch ∉ p.column.data ∧ ch ∉ p.value.data) :
    strContains (buildSQL n d) "WHERE" = false ∧
    strContains (buildSQL n d) "JOIN" = false ∧
    strContains (buildSQL n d) "ORDER BY" = false ∧
    strContains (buildSQL n d) "LIMIT" = false := by
  have hb : buildSQL n d = buildInsert n := by simp only [buildSQL, hop]
  have hout : ∀ ch ∈ (['W', 'J', 'B', 'M'] : List Char), ch ∉ (buildSQL n d).data := by
    intro ch hch hmem
    rw [hb] at hmem
    rcases mem_buildInsert hmem with hg | ht2 | ⟨p, hp, hc⟩
    · fin_cases hch <;> exact absurd hg (by decide)
    · exact absurd ht2 (hclean ch hch).1
    · rcases hc with hc | hc
      · exact absurd hc ((hclean ch hch).2 p hp).1
      · exact absurd hc ((hclean ch hch).2 p hp).2
  refine ⟨?_, ?_, ?_, ?_⟩
  · exact strContains_false_of_not_mem (by decide) (hout 'W' (by decide))
  · exact strContains_false_of_not_mem (by decide) (hout 'J' (by decide))
  · exact strContains_false_of_not_mem (by decide) (hout 'B' (by decide))
  · exact strContains_false_of_not_mem (by decide) (hout 'M' (by decide))

theorem insert_ignores_clauses_amended_witness :
    strContains (buildSQL insertCleanNode 0) "WHERE" = false ∧
    strContains (buildSQL insertCleanNode 0) "JOIN" = false ∧
    strContains (buildSQL insertCleanNode 0) "ORDER BY" = false ∧
    strContains (buildSQL insertCleanNode 0) "LIMIT" = false :=
  insert_ignores_clauses_amended insertCleanNode 0 rfl (by decide)
    ⟨ColumnValuePair.mk "p" "name" "Ann", by simp [insertCleanNode], by decide⟩
    (by simp [insertCleanNode]) (by simp [insertCleanNode]) (by simp [insertCleanNode])
    (by decide) (by decide)

theorem buildWhereClause_nil (sq : List (String × QueryNode)) (d : Nat)
    (i1 i2 : String) : buildWhereClause [] sq d i1 i2 = "" := by
  simp [buildWhereClause]

theorem mem_orderByCols {ch : Char} {ob : List OrderByClause}
    (h : ch ∈ (orderByCols ob).data) :
    ch ∈ clauseGlue ∨ ∃ o ∈ ob, ch ∈ o.column.data ∨ ch ∈ o.direction.data := by
  simp only [orderByCols] at h
  rcases mem_joinSep h with h | ⟨s, hs, hcs⟩
  · exact Or.inl (mem_of_forall_mem (by decide) h)
  · rcases List.mem_map.mp hs with ⟨o, ho, rfl⟩
    simp only [String.data_append, List.mem_append] at hcs
    rcases hcs with (hcs | hcs) | hcs
    · exact Or.inr ⟨o, List.mem_of_mem_filter ho, Or.inl hcs⟩
    · exact Or.inl (mem_of_forall_mem (by decide) hcs)
    · exact Or.inr ⟨o, List.mem_of_mem_filter ho, Or.inr hcs⟩

theorem buildSelect_shape (n : QueryNode) (d : Nat) (i1 i2 : String)
    (ht : ¬n.table = "") :
    buildSelect n d i1 i2
      = "SELECT " ++ (if jsTrim n.selectColumns = "" then "*" else jsTrim n.selectColumns)
        ++ "\n" ++ i1 ++ "FROM " ++ n.table
        ++ renderJoins i1 n.joins
        ++ buildWhereClause n.conditions n.subQueries d i1 i2
        ++ (if n.orderBy.isEmpty then "" else if orderByCols n.orderBy = "" then ""
            else "\n" ++ i1 ++ "ORDER BY " ++ orderByCols n.orderBy)
        ++ (if n.limit = "" then "" else "\n" ++ i1 ++ "LIMIT " ++ n.limit)
        ++ ";" := by
  simp only [buildSelect, ht, if_false]
  split
  · split
    · simp [String.append_empty, String.append_assoc]
    · split
      · simp [String.append_empty, String.append_assoc]
      · simp [String.append_empty, String.append_assoc]
  · split
    · simp [String.append_empty, String.append_assoc]
    · split
      · simp [String.append_empty, String.append_assoc]
      · simp [String.append_empty, String.append_assoc]

theorem mem_buildSQL_no_conds {n : QueryNode} {d : Nat} {ch : Char}
    (hop : n.operation ≠ SQLOperation.INSERT) (hc : n.conditions = [])
    (h : ch ∈ (buildSQL n d).data) :
    ch ∈ clauseGlue ∨ ch ∈ n.table.data ∨ ch ∈ n.selectColumns.data
      ∨ (∃ j ∈ n.joins, ch ∈ j.type.data ∨ ch ∈ j.table.data ∨ ch ∈ j.onLeft.data
          ∨ ch ∈ j.onRight.data)
      ∨ (∃ o ∈ n.orderBy, ch ∈ o.column.data ∨ ch ∈ o.direction.data)
      ∨ ch ∈ n.limit.data
      ∨ (∃ p ∈ n.pairs, ch ∈ p.column.data ∨ ch ∈ p.value.data) := by
  have hind : ∀ c ∈ (indentStr d).data, c = ' ' := fun c hcm => mem_indentStr hcm
  have hind2 : ∀ c ∈ (indentStr (d + 1)).data, c = ' ' := fun c hcm => mem_indentStr hcm
  cases hopv : n.operation with
  | INSERT => exact absurd hopv hop
  | SELECT =>
    simp only [buildSQL, hopv] at h
    by_cases ht : n.table = ""
    · simp only [buildSelect, ht, if_true] at h
      simp only [String.data_append, List.mem_append] at h
      rcases h with h | h
      · exact Or.inl (by rw [mem_indentStr h]; decide)
      · exact Or.inl (mem_of_forall_mem (by decide) h)
    · rw [buildSelect_shape n d _ _ ht, hc, buildWhereClause_nil] at h
      simp only [String.data_append, List.mem_append] at h
      rcases h with (((((((((h | h) | h) | h) | h) | h) | h) | h) | h) | h) | h
      · exact Or.inl (mem_of_forall_mem (by decide) h)
      · split at h
        · exact Or.inl (mem_of_forall_mem (by decide) h)
        · exact Or.inr (Or.inr (Or.inl (mem_jsTrim h)))
      · exact Or.inl (mem_of_forall_mem (by decide) h)
      · exact Or.inl (by rw [mem_indentStr h]; decide)
      · exact Or.inl (mem_of_forall_mem (by decide) h)
      · exact Or.inr (Or.inl h)
      · rcases mem_renderJoins hind h with h | ⟨j, hj, hcj⟩
        · exact Or.inl h
        · exact Or.inr (Or.inr (Or.inr (Or.inl ⟨j, hj, hcj⟩)))
      · exact absurd h (List.not_mem_nil ch)
      · split at h
        · exact absurd h (List.not_mem_nil ch)
        · split at h
          · exact absurd h (List.not_mem_nil ch)
          · simp only [String.data_append, List.mem_append] at h
            rcases h with ((h | h) | h) | h
            · exact Or.inl (mem_of_forall_mem (by decide) h)
            · exact Or.inl (by rw [mem_indentStr h]; decide)
            · exact Or.inl (mem_of_forall_mem (by decide) h)
            · rcases mem_orderByCols h with h | ⟨o, ho, hco⟩
              · exact Or.inl h
              · exact Or.inr (Or.inr (Or.inr (Or.inr (Or.inl ⟨o, ho, hco⟩))))
      · split at h
        · exact absurd h (List.not_mem_nil ch)
        · simp only [String.data_append, List.mem_append] at h
          rcases h with ((h | h) | h) | h
          · exact Or.inl (mem_of_forall_mem (by decide) h)
          · exact Or.inl (by rw [mem_indentStr h]; decide)
          · exact Or.inl (mem_of_forall_mem (by decide) h)
          · exact Or.inr (Or.inr (Or.inr (Or.inr (Or.inr (Or.inl h)))))
      · exact Or.inl (mem_of_forall_mem (by decide) h)
  | UPDATE =>
    simp only [buildSQL, hopv, buildUpdate] at h
    split at h
    · simp only [String.data_append, List.mem_append] at h
      rcases h with h | h
      · exact Or.inl (by rw [mem_indentStr h]; decide)
      · exact Or.inl (mem_of_forall_mem (by decide) h)
    · split at h
      · simp only [String.data_append, List.mem_append] at h
        rcases h with h | h
        · exact Or.inl (by rw [mem_indentStr h]; decide)
        · exact Or.inl (mem_of_forall_mem (by decide) h)
      · rw [hc, buildWhereClause_nil] at h
        simp only [String.data_append, List.mem_append] at h
        rcases h with ((((((h | h) | h) | h) | h) | h) | h) | h
        · exact Or.inl (mem_of_forall_mem (by decide) h)
        · exact Or.inr (Or.inl h)
        · exact Or.inl (mem_of_forall_mem (by decide) h)
        · exact Or.inl (by rw [mem_indentStr h]; decide)
        · exact Or.inl (mem_of_forall_mem (by decide) h)
        · rcases mem_joinSep h with h | ⟨s, hs, hcs⟩
          · exact Or.inl (mem_of_forall_mem (by decide) h)
          · rcases List.mem_map.mp hs with ⟨p, hp, rfl⟩
            simp only [String.data_append, List.mem_append] at hcs
            rcases hcs with (((hcs | hcs) | hcs) | hcs) | hcs
            · exact Or.inl (by rw [mem_indentStr hcs]; decide)
            · exact Or.inr (Or.inr (Or.inr (Or.inr (Or.inr (Or.inr
                ⟨p, List.mem_of_mem_filter hp, Or.inl hcs⟩)))))
            · exact Or.inl (mem_of_forall_mem (by decide) hcs)
            · exact Or.inr (Or.inr (Or.inr (Or.inr (Or.inr (Or.inr
                ⟨p, List.mem_of_mem_filter hp, Or.inr hcs⟩)))))
            · exact Or.inl (mem_of_forall_mem (by decide) hcs)
        · exact absurd h (List.not_mem_nil ch)
        · exact Or.inl (mem_of_forall_mem (by decide) h)
  | DELETE =>
    simp only [buildSQL, hopv, buildDelete] at h
    split at h
    · simp only [String.data_append, List.mem_append] at h
      rcases h with h | h
      · exact Or.inl (by rw [mem_indentStr h]; decide)
      · exact Or.inl (mem_of_forall_mem (by decide) h)
    · rw [hc, buildWhereClause_nil] at h
      simp only [String.data_append, List.mem_append] at h
      rcases h with ((h | h) | h) | h
      · exact Or.inl (mem_of_forall_mem (by decide) h)
      · exact Or.inr (Or.inl h)
      · exact absurd h (List.not_mem_nil ch)
      · exact Or.inl (mem_of_forall_mem (by decide) h)

/-- C7 counterexample: a SELECT node with an empty condition list whose
table is the string `WHERE` compiles to `SELECT *\nFROM WHERE;`, which
contains the substring `WHERE`, falsifying the claim as stated. -/
theorem where_omission_counterexample :
    QueryNode.conditions selectKeywordTableNode = [] ∧
    buildSQL selectKeywordTableNode 0 = "SELECT *\nFROM WHERE;" ∧
    strContains (buildSQL selectKeywordTableNode 0) "WHERE" = true := by
  have h : buildSQL selectKeywordTableNode 0 = "SELECT *\nFROM WHERE;" := by
    simp +decide [selectKeywordTableNode, buildSQL, buildSelect, buildWhereClause,
      renderJoins, jsTrim, indentStr, orderByCols, joinSep]
  exact ⟨rfl, h, by rw [h]; decide⟩

/-- C7 amended: for every SELECT/UPDATE/DELETE node with an empty condition
list and every depth, the compiled text contains no `WHERE` substring -
provided the letter `W` does not occur in any of the node's own string
fields (the renderers themselves emit no `W` outside the WHERE keyword;
without this proviso a field spelling `WHERE` lands in the output
verbatim). -/
theorem where_omission_amended (n : QueryNode) (d : Nat)
    (hop : n.operation ≠ SQLOperation.INSERT) (hc : n.conditions = [])
    (hclean : ('W' : Char) ∉ n.table.data ∧ ('W' : Char) ∉ n.selectColumns.data
      ∧ ('W' : Char) ∉ n.limit.data
      ∧ (∀ j ∈ n.joins, ('W' : Char) ∉ j.type.data ∧ ('W' : Char) ∉ j.table.data
          ∧ ('W' : Char) ∉ j.onLeft.data ∧ ('W' : Char) ∉ j.onRight.data)
      ∧ (∀ o ∈ n.orderBy, ('W' : Char) ∉ o.column.data ∧ ('W' : Char) ∉ o.direction.data)
      ∧ (∀ p ∈ n.pairs, ('W' : Char) ∉ p.column.data ∧ ('W' : Char) ∉ p.value.data)) :
    strContains (buildSQL n d) "WHERE" = false := by
  obtain ⟨h1, h2, h3, h4, h5, h6⟩ := hclean
  refine @strContains_false_of_not_mem (buildSQL n d) "WHERE" 'W' (by decide) ?_
  intro hmem
  rcases mem_buildSQL_no_conds hop hc hmem with
    hg | hx | hx | ⟨j, hj, hx | hx | hx | hx⟩ | ⟨o, ho, hx | hx⟩ | hx | ⟨p, hp, hx | hx⟩
  · exact absurd hg (by decide)
  · exact absurd hx h1
  · exact absurd hx h2
  · exact absurd hx (h4 j hj).1
  · exact absurd hx (h4 j hj).2.1
  · exact absurd hx (h4 j hj).2.2.1
  · exact absurd hx (h4 j hj).2.2.2
  · exact absurd hx (h5 o ho).1
  · exact absurd hx (h5 o ho).2
  · exact absurd hx h3
  · exact absurd hx (h6 p hp).1
  · exact absurd hx (h6 p hp).2

theorem where_omission_amended_witness :
    strContains (buildSQL selectCleanNode 0) "WHERE" = false :=
  where_omission_amended selectCleanNode 0 (by decide) rfl
    ⟨by decide, by decide, by decide, by decide, by decide, by decide⟩

theorem stripLS_nl (b : Bool) (x : List Char) :
    stripLS b ('\n' :: x) = '\n' :: stripLS true x := by simp [stripLS]

theorem stripLS_space_true (x : List Char) :
    stripLS true (' ' :: x) = stripLS true x := by simp [stripLS]

theorem stripLS_space_false (x : List Char) :
    stripLS false (' ' :: x) = ' ' :: stripLS false x := by simp [stripLS]

theorem stripLS_other {c : Char} (h1 : c ≠ '\n') (h2 : c ≠ ' ') (b : Bool)
    (x : List Char) : stripLS b (c :: x) = c :: stripLS false x := by
  simp [stripLS, h1, h2]

theorem modeAfter_nl (b : Bool) (x : List Char) :
    modeAfter b ('\n' :: x) = modeAfter true x := by simp [modeAfter]

theorem modeAfter_space (b : Bool) (x : List Char) :
    modeAfter b (' ' :: x) = modeAfter b x := by simp [modeAfter]

theorem modeAfter_other {c : Char} (h1 : c ≠ '\n') (h2 : c ≠ ' ') (b : Bool)
    (x : List Char) : modeAfter b (c :: x) = modeAfter false x := by
  simp [modeAfter, h1, h2]

theorem modeAfter_append (b : Bool) (x y : List Char) :
    modeAfter b (x ++ y) = modeAfter (modeAfter b x) y := by
  induction x generalizing b with
  | nil => rfl
  | cons c r ih => simp only [List.cons_append, modeAfter]; exact ih _

theorem stripLS_append (b : Bool) (x y : List Char) :
    stripLS b (x ++ y) = stripLS b x ++ stripLS (modeAfter b x) y := by
  induction x generalizing b with
  | nil => rfl
  | cons c r ih =>
    by_cases h1 : c = '\n'
    · subst h1
      simp only [List.cons_append, stripLS_nl, modeAfter_nl, ih, List.cons_append]
    · by_cases h2 : c = ' '
      · subst h2
        cases b with
        | true =>
          simp only [List.cons_append, stripLS_space_true, modeAfter_space, ih]
        | false =>
          simp only [List.cons_append, stripLS_space_false, modeAfter_space, ih,
            List.cons_append]
      · simp only [List.cons_append, stripLS_other h1 h2, modeAfter_other h1 h2, ih,
          List.cons_append]

theorem SLC_refl (b : Bool) (x : List Char) : SLC b x x := ⟨rfl, rfl⟩

theorem SLC_append {b : Bool} {x y u v : List Char} (h1 : SLC b x y)
    (h2 : SLC (modeAfter b x) u v) : SLC b (x ++ u) (y ++ v) := by
  obtain ⟨hs1, hm1⟩ := h1
  obtain ⟨hs2, hm2⟩ := h2
  constructor
  · rw [stripLS_append, stripLS_append, hs1, ← hm1, hs2]
  · rw [modeAfter_append, modeAfter_append, ← hm1]
    exact hm2

theorem stripLS_spaces {l : List Char} (h : ∀ c ∈ l, c = ' ') :
    stripLS true l = [] := by
  induction l with
  | nil => rfl
  | cons c r ih =>
    rw [h c (List.mem_cons_self c r), stripLS_space_true]
    exact ih (fun c hc => h c (List.mem_cons_of_mem _ hc))

theorem modeAfter_spaces {l : List Char} (h : ∀ c ∈ l, c = ' ') :
    modeAfter true l = true := by
  induction l with
  | nil => rfl
  | cons c r ih =>
    rw [h c (List.mem_cons_self c r), modeAfter_space]
    exact ih (fun c hc => h c (List.mem_cons_of_mem _ hc))

theorem stripLS_prefix_spaces {p : List Char} (hp : ∀ c ∈ p, c = ' ')
    (y : List Char) : stripLS true (p ++ y) = stripLS true y := by
  rw [stripLS_append, stripLS_spaces hp, modeAfter_spaces hp, List.nil_append]

theorem modeAfter_prefix_spaces {p : List Char} (hp : ∀ c ∈ p, c = ' ')
    (y : List Char) : modeAfter true (p ++ y) = modeAfter true y := by
  rw [modeAfter_append, modeAfter_spaces hp]

theorem SLC_prefix_pads {p q z w : List Char} (hp : ∀ c ∈ p, c = ' ')
    (hq : ∀ c ∈ q, c = ' ') (h : SLC true z w) : SLC true (p ++ z) (q ++ w) := by
  obtain ⟨hs, hm⟩ := h
  exact ⟨by rw [stripLS_prefix_spaces hp, stripLS_prefix_spaces hq, hs],
    by rw [modeAfter_prefix_spaces hp, modeAfter_prefix_spaces hq, hm]⟩

theorem SLC_nl_pads_cont {p q z w : List Char} (hp : ∀ c ∈ p, c = ' ')
    (hq : ∀ c ∈ q, c = ' ') (h : SLC true z w) (m : Bool) :
    SLC m ('\n' :: (p ++ z)) ('\n' :: (q ++ w)) := by
  obtain ⟨hs, hm⟩ := SLC_prefix_pads hp hq h
  exact ⟨by rw [stripLS_nl, stripLS_nl, hs], by rw [modeAfter_nl, modeAfter_nl, hm]⟩

theorem stripLS_insPad {p : List Char} (hp : ∀ c ∈ p, c = ' ') :
    ∀ (b : Bool) (cs : List Char), stripLS b (insPad p cs) = stripLS b cs := by
  intro b cs
  induction cs generalizing b with
  | nil => rfl
  | cons c r ih =>
    by_cases h1 : c = '\n'
    · subst h1
      rw [show insPad p ('\n' :: r) = '\n' :: (p ++ insPad p r) from by simp [insPad],
        stripLS_nl, stripLS_nl, stripLS_prefix_spaces hp, ih]
    · rw [show insPad p (c :: r) = c :: insPad p r from by simp [insPad, h1]]
      by_cases h2 : c = ' '
      · subst h2
        cases b with
        | true => rw [stripLS_space_true, stripLS_space_true, ih]
        | false => rw [stripLS_space_false, stripLS_space_false, ih]
      · rw [stripLS_other h1 h2, stripLS_other h1 h2, ih]

theorem modeAfter_insPad {p : List Char} (hp : ∀ c ∈ p, c = ' ') :
    ∀ (b : Bool) (cs : List Char), modeAfter b (insPad p cs) = modeAfter b cs := by
  intro b cs
  induction cs generalizing b with
  | nil => rfl
  | cons c r ih =>
    by_cases h1 : c = '\n'
    · subst h1
      rw [show insPad p ('\n' :: r) = '\n' :: (p ++ insPad p r) from by simp [insPad],
        modeAfter_nl, modeAfter_nl, modeAfter_prefix_spaces hp, ih]
    · rw [show insPad p (c :: r) = c :: insPad p r from by simp [insPad, h1]]
      by_cases h2 : c = ' '
      · subst h2
        rw [modeAfter_space, modeAfter_space, ih]
      · rw [modeAfter_other h1 h2, modeAfter_other h1 h2, ih]

theorem data_mk (l : List Char) : (String.mk l).data = l := rfl

theorem splitNlCh_ne_nil (cs : List Char) : splitNlCh cs ≠ [] := by
  cases cs with
  | nil => simp [splitNlCh]
  | cons c r =>
    simp only [splitNlCh]
    split
    · simp
    · split <;> simp

theorem joinSep_cons_cons (sep a b : String) (rest : List String) :
    joinSep sep (a :: b :: rest) = a ++ sep ++ joinSep sep (b :: rest) := rfl

theorem joinSep_map_pad_data (p : String) :
    ∀ cs : List Char,
      (joinSep "\n" ((splitNlCh cs).map (fun l => p ++ String.mk l))).data
        = p.data ++ insPad p.data cs := by
  intro cs
  induction cs with
  | nil =>
    simp [splitNlCh, joinSep, insPad, String.data_append, data_mk]
  | cons c r ih =>
    obtain ⟨l, ls, hls⟩ : ∃ l ls, splitNlCh r = l :: ls := by
      cases h : splitNlCh r with
      | nil => exact absurd h (splitNlCh_ne_nil r)
      | cons l ls => exact ⟨l, ls, rfl⟩
    rw [hls] at ih
    simp only [List.map_cons] at ih
    by_cases hc : c = '\n'
    · subst hc
      rw [show splitNlCh ('\n' :: r) = [] :: splitNlCh r from rfl, hls]
      simp only [List.map_cons, joinSep_cons_cons]
      rw [show insPad p.data ('\n' :: r) = '\n' :: (p.data ++ insPad p.data r)
        from by simp [insPad]]
      simp only [String.data_append, data_mk, List.append_assoc, List.append_nil]
      rw [ih]
      simp
    · rw [show splitNlCh (c :: r) = (c :: l) :: ls from by
        simp only [splitNlCh, hc, if_false, hls]]
      rw [show insPad p.data (c :: r) = c :: insPad p.data r from by simp [insPad, hc]]
      cases ls with
      | nil =>
        simp only [List.map_cons, List.map_nil, joinSep, String.data_append, data_mk]
          at ih ⊢
        have hl : l = insPad p.data r := List.append_cancel_left ih
        rw [← hl]
      | cons l2 ls2 =>
        simp only [List.map_cons, joinSep_cons_cons, String.data_append, data_mk,
          List.append_assoc] at ih ⊢
        have hl := List.append_cancel_left ih
        rw [← hl]
        simp

theorem wrap_inner_data_ch (p : String) :
    ∀ cs : List Char,
      (joinSep "\n" (reindentTail p ((splitNlCh cs).map String.mk))).data
        = insPad p.data cs := by
  intro cs
  induction cs with
  | nil => simp [splitNlCh, reindentTail, joinSep, insPad]
  | cons c r ih =>
    obtain ⟨l, ls, hls⟩ : ∃ l ls, splitNlCh r = l :: ls := by
      cases h : splitNlCh r with
      | nil => exact absurd h (splitNlCh_ne_nil r)
      | cons l ls => exact ⟨l, ls, rfl⟩
    by_cases hc : c = '\n'
    · subst hc
      rw [show splitNlCh ('\n' :: r) = [] :: splitNlCh r from rfl, hls]
      simp only [List.map_cons, reindentTail, List.map_map]
      rw [show String.mk [] = "" from rfl, joinSep_cons_cons]
      have haux := joinSep_map_pad_data p r
      rw [hls] at haux
      simp only [List.map_cons] at haux
      rw [show insPad p.data ('\n' :: r) = '\n' :: (p.data ++ insPad p.data r)
        from by simp [insPad]]
      have hcomp : (fun x => p ++ x) ∘ String.mk = fun l => p ++ String.mk l := rfl
      rw [hcomp]
      simp only [String.data_append, data_mk, List.append_assoc] at haux ⊢
      rw [haux]
      simp
    · rw [show splitNlCh (c :: r) = (c :: l) :: ls from by
        simp only [splitNlCh, hc, if_false, hls]]
      rw [show insPad p.data (c :: r) = c :: insPad p.data r from by simp [insPad, hc]]
      rw [hls] at ih
      cases ls with
      | nil =>
        simp only [List.map_cons, List.map_nil, reindentTail, joinSep, data_mk] at ih ⊢
        rw [← ih]
      | cons l2 ls2 =>
        simp only [List.map_cons, reindentTail, List.map_map] at ih ⊢
        have hcomp : (fun x => p ++ x) ∘ String.mk = fun l => p ++ String.mk l := rfl
        rw [hcomp] at ih ⊢
        simp only [joinSep_cons_cons, String.data_append, data_mk,
          List.append_assoc] at ih ⊢
        rw [← ih]
        simp

theorem wrap_inner_data (p u : String) :
    (joinSep "\n" (reindentTail p (splitNl u))).data = insPad p.data u.data :=
  wrap_inner_data_ch p u.data

theorem wrapSub_data (k : Nat) (u : String) :
    (wrapSub k u).data
      = '(' :: '\n' :: ((indentStr (k + 2)).data
        ++ (insPad (indentStr (k + 2)).data u.data
          ++ ('\n' :: ((indentStr (k + 1)).data ++ [')'])))) := by
  simp [wrapSub, String.data_append, wrap_inner_data, List.append_assoc]

theorem wrap_SLC {s t : String} (h : SLC true s.data t.data) (a b : Nat) :
    ∀ m, SLC m (wrapSub a s).data (wrapSub b t).data := by
  intro m
  obtain ⟨hstrip, hmode⟩ := h
  have hpa : ∀ c ∈ (indentStr (a + 2)).data, c = ' ' := fun c hc => mem_indentStr hc
  have hpb : ∀ c ∈ (indentStr (b + 2)).data, c = ' ' := fun c hc => mem_indentStr hc
  have hqa : ∀ c ∈ (indentStr (a + 1)).data, c = ' ' := fun c hc => mem_indentStr hc
  have hqb : ∀ c ∈ (indentStr (b + 1)).data, c = ' ' := fun c hc => mem_indentStr hc
  have so : ∀ (bb : Bool) (x : List Char), stripLS bb ('(' :: x) = '(' :: stripLS false x :=
    stripLS_other (by decide) (by decide)
  have mo : ∀ (bb : Bool) (x : List Char), modeAfter bb ('(' :: x) = modeAfter false x :=
    modeAfter_other (by decide) (by decide)
  rw [wrapSub_data, wrapSub_data]
  constructor
  · simp only [so, stripLS_nl, stripLS_append, stripLS_insPad hpa, stripLS_insPad hpb,
      modeAfter_insPad hpa, modeAfter_insPad hpb, stripLS_spaces hpa, stripLS_spaces hpb,
      stripLS_spaces hqa, stripLS_spaces hqb, modeAfter_spaces hpa, modeAfter_spaces hpb,
      modeAfter_spaces hqa, modeAfter_spaces hqb, List.nil_append, hstrip, hmode]
  · simp only [mo, modeAfter_nl, modeAfter_append, modeAfter_insPad hpa,
      modeAfter_insPad hpb, modeAfter_spaces hpa, modeAfter_spaces hpb,
      modeAfter_spaces hqa, modeAfter_spaces hqb, hmode]

theorem SLC_cons {b : Bool} {c : Char} {u v : List Char}
    (h : SLC (if c = '\n' then true else if c = ' ' then b else false) u v) :
    SLC b (c :: u) (c :: v) := by
  obtain ⟨hs, hm⟩ := h
  by_cases h1 : c = '\n'
  · subst h1
    have hs2 : stripLS true u = stripLS true v := by simpa using hs
    have hm2 : modeAfter true u = modeAfter true v := by simpa using hm
    exact ⟨by rw [stripLS_nl, stripLS_nl, hs2], by rw [modeAfter_nl, modeAfter_nl, hm2]⟩
  · by_cases h2 : c = ' '
    · subst h2
      have hs2 : stripLS b u = stripLS b v := by simpa using hs
      have hm2 : modeAfter b u = modeAfter b v := by simpa using hm
      cases b with
      | true =>
        exact ⟨by rw [stripLS_space_true, stripLS_space_true, hs2],
          by rw [modeAfter_space, modeAfter_space, hm2]⟩
      | false =>
        exact ⟨by rw [stripLS_space_false, stripLS_space_false, hs2],
          by rw [modeAfter_space, modeAfter_space, hm2]⟩
    · have hs2 : stripLS false u = stripLS false v := by simpa [h1, h2] using hs
      have hm2 : modeAfter false u = modeAfter false v := by simpa [h1, h2] using hm
      exact ⟨by rw [stripLS_other h1 h2, stripLS_other h1 h2, hs2],
        by rw [modeAfter_other h1 h2, modeAfter_other h1 h2, hm2]⟩

theorem lookup_mem {sid : String} {l : List (String × QueryNode)} {v : QueryNode}
    (h : List.lookup sid l = some v) : (sid, v) ∈ l := by
  induction l with
  | nil => simp [List.lookup] at h
  | cons p rest ih =>
    obtain ⟨k, w⟩ := p
    by_cases hk : sid == k
    · simp only [List.lookup, hk] at h
      cases h
      have : sid = k := by simpa using hk
      subst this
      exact List.mem_cons_self _ _
    · simp only [List.lookup, hk] at h
      exact List.mem_cons_of_mem _ (ih h)

theorem renderJoins_SLC (a e : Nat) (js : List JoinClause) :
    ∀ m, SLC m (renderJoins (indentStr a) js).data (renderJoins (indentStr e) js).data := by
  induction js with
  | nil => intro m; exact SLC_refl m _
  | cons j rest ih =>
    intro m
    simp only [renderJoins]
    by_cases hg : j.table ≠ "" ∧ j.onLeft ≠ "" ∧ j.onRight ≠ ""
    · rw [if_pos hg, if_pos hg]
      simp only [String.data_append, List.append_assoc, List.cons_append,
        List.nil_append]
      have hpa : ∀ c ∈ (indentStr a).data, c = ' ' := fun c hc => mem_indentStr hc
      have hpe : ∀ c ∈ (indentStr e).data, c = ' ' := fun c hc => mem_indentStr hc
      refine SLC_nl_pads_cont hpa hpe ?_ m
      refine SLC_append (SLC_refl _ _) ?_
      refine SLC_cons ?_
      refine SLC_cons ?_
      refine SLC_cons ?_
      refine SLC_cons ?_
      refine SLC_cons ?_
      refine SLC_cons ?_
      refine SLC_append (SLC_refl _ _) ?_
      refine SLC_cons ?_
      refine SLC_cons ?_
      refine SLC_cons ?_
      refine SLC_cons ?_
      refine SLC_append (SLC_refl _ _) ?_
      refine SLC_cons ?_
      refine SLC_cons ?_
      refine SLC_cons ?_
      refine SLC_append (SLC_refl _ _) ?_
      exact ih _
    · rw [if_neg hg, if_neg hg]
      simpa using ih m

theorem resolve_none {c : Condition} {sq : List (String × QueryNode)} {d : Nat}
    (h : c.subQueryId = none) :
    resolveConditionValue c sq d = "'" ++ c.value ++ "'" := by
  simp [resolveConditionValue, h]

theorem resolve_sid_empty {c : Condition} {sq : List (String × QueryNode)} {d : Nat}
    {sid : String} (h : c.subQueryId = some sid) (he : sid = "") :
    resolveConditionValue c sq d = "'" ++ c.value ++ "'" := by
  simp [resolveConditionValue, h, he]

theorem resolve_SLC (c : Condition) (sq : List (String × QueryNode)) (d e : Nat)
    (IH : ∀ sid sub, (sid, sub) ∈ sq →
      SLC true (buildSQL sub (d + 2)).data (buildSQL sub (e + 2)).data)
    (m : Bool) :
    SLC m (resolveConditionValue c sq d).data (resolveConditionValue c sq e).data := by
  cases hq : c.subQueryId with
  | none => rw [resolve_none hq, resolve_none hq]; exact SLC_refl _ _
  | some sid =>
    by_cases hne : sid = ""
    · rw [resolve_sid_empty hq hne, resolve_sid_empty hq hne]
      exact SLC_refl _ _
    · cases hl : List.lookup sid sq with
      | none => rw [resolve_dangling hq hl, resolve_dangling hq hl]; exact SLC_refl _ _
      | some sub =>
        rw [resolve_found hq hne hl, resolve_found hq hne hl]
        exact wrap_SLC (IH sid sub (lookup_mem hl)) d e m

theorem condClause_SLC (c : Condition) (sq : List (String × QueryNode)) (d e : Nat)
    (IH : ∀ sid sub, (sid, sub) ∈ sq →
      SLC true (buildSQL sub (d + 2)).data (buildSQL sub (e + 2)).data)
    (m : Bool) :
    SLC m (buildCondClause c sq d).data (buildCondClause c sq e).data := by
  simp only [buildCondClause]
  by_cases hex : isExistsOp c.operator = true
  · rw [if_pos hex, if_pos hex]
    simp only [String.data_append, List.append_assoc, List.cons_append, List.nil_append]
    refine SLC_append (SLC_refl _ _) ?_
    refine SLC_cons ?_
    exact resolve_SLC c sq d e IH _
  · rw [if_neg hex, if_neg hex]
    by_cases hnull : isNullOp c.operator = true
    · rw [if_pos hnull, if_pos hnull]
      exact SLC_refl _ _
    · rw [if_neg hnull, if_neg hnull]
      by_cases hhas : condHasSub c = true
      · rw [if_pos hhas, if_pos hhas]
        simp only [String.data_append, List.append_assoc, List.cons_append,
          List.nil_append]
        refine SLC_append (SLC_refl _ _) ?_
        refine SLC_cons ?_
        refine SLC_append (SLC_refl _ _) ?_
        refine SLC_cons ?_
        exact resolve_SLC c sq d e IH _
      · rw [if_neg hhas, if_neg hhas]
        exact SLC_refl _ _

theorem joinSep_where_SLC {d e : Nat} {ps qs : List String}
    (hall : List.Forall₂ (fun p q => ∀ m, SLC m p.data q.data) ps qs) :
    ∀ m, SLC m (joinSep ("\n" ++ indentStr (d + 1)) ps).data
          (joinSep ("\n" ++ indentStr (e + 1)) qs).data := by
  induction hall with
  | nil => intro m; exact SLC_refl _ _
  | cons hpq htail ih =>
    intro m
    cases htail with
    | nil => simpa [joinSep] using hpq m
    | cons hpq2 htail2 =>
      rw [joinSep_cons_cons, joinSep_cons_cons]
      simp only [String.data_append, List.append_assoc, List.cons_append,
        List.nil_append]
      refine SLC_append (hpq m) ?_
      refine SLC_nl_pads_cont (fun c hc => mem_indentStr hc)
        (fun c hc => mem_indentStr hc) ?_ _
      exact ih true

theorem whereClause_SLC (conds : List Condition) (sq : List (String × QueryNode))
    (d e : Nat)
    (IH : ∀ sid sub, (sid, sub) ∈ sq →
      SLC true (buildSQL sub (d + 2)).data (buildSQL sub (e + 2)).data)
    (m : Bool) :
    SLC m (buildWhereClause conds sq d (indentStr d) (indentStr (d + 1))).data
          (buildWhereClause conds sq e (indentStr e) (indentStr (e + 1))).data := by
  cases conds with
  | nil => rw [buildWhereClause_nil, buildWhereClause_nil]; exact SLC_refl _ _
  | cons c0 rest =>
    have hparts : List.Forall₂ (fun p q => ∀ m2, SLC m2 p.data q.data)
        (buildCondClause c0 sq d
          :: rest.map (fun c => c.logic ++ " " ++ buildCondClause c sq d))
        (buildCondClause c0 sq e
          :: rest.map (fun c => c.logic ++ " " ++ buildCondClause c sq e)) := by
      refine List.Forall₂.cons (fun m2 => condClause_SLC c0 sq d e IH m2) ?_
      induction rest with
      | nil => exact List.Forall₂.nil
      | cons c cs ihr =>
        refine List.Forall₂.cons ?_ ihr
        intro m2
        simp only [String.data_append, List.append_assoc, List.cons_append,
          List.nil_append]
        refine SLC_append (SLC_refl _ _) ?_
        refine SLC_cons ?_
        exact condClause_SLC c sq d e IH _
    simp only [buildWhereClause]
    simp only [String.data_append, List.append_assoc, List.cons_append, List.nil_append]
    refine SLC_nl_pads_cont (fun c hc => mem_indentStr hc)
      (fun c hc => mem_indentStr hc) ?_ _
    refine SLC_cons ?_
    refine SLC_cons ?_
    refine SLC_cons ?_
    refine SLC_cons ?_
    refine SLC_cons ?_
    refine SLC_cons ?_
    exact joinSep_where_SLC hparts _

theorem joinSep_comma_SLC {ps qs : List String}
    (hall : List.Forall₂ (fun p q => SLC true p.data q.data) ps qs) :
    SLC true (joinSep ",\n" ps).data (joinSep ",\n" qs).data := by
  induction hall with
  | nil => exact SLC_refl _ _
  | cons hpq htail ih =>
    cases htail with
    | nil => simpa [joinSep] using hpq
    | cons hpq2 htail2 =>
      rw [joinSep_cons_cons, joinSep_cons_cons]
      simp only [String.data_append, List.append_assoc, List.cons_append,
        List.nil_append]
      refine SLC_append hpq ?_
      refine SLC_cons ?_
      refine SLC_cons ?_
      exact ih

theorem sets_SLC (pairs : List ColumnValuePair) (d e : Nat) :
    SLC true (joinSep ",\n" ((pairs.filter (fun p => p.column != "")).map
        (fun p => indentStr (d + 1) ++ p.column ++ " = '" ++ p.value ++ "'"))).data
      (joinSep ",\n" ((pairs.filter (fun p => p.column != "")).map
        (fun p => indentStr (e + 1) ++ p.column ++ " = '" ++ p.value ++ "'"))).data := by
  refine joinSep_comma_SLC ?_
  induction pairs.filter (fun p => p.column != "") with
  | nil => exact List.Forall₂.nil
  | cons p rest ihr =>
    refine List.Forall₂.cons ?_ ihr
    simp only [String.data_append, List.append_assoc, List.cons_append, List.nil_append]
    exact SLC_prefix_pads (fun c hc => mem_indentStr hc) (fun c hc => mem_indentStr hc)
      (SLC_refl _ _)

theorem select_SLC (n : QueryNode) (d e : Nat)
    (IH : ∀ sid sub, (sid, sub) ∈ n.subQueries →
      SLC true (buildSQL sub (d + 2)).data (buildSQL sub (e + 2)).data) :
    SLC true (buildSelect n d (indentStr d) (indentStr (d + 1))).data
             (buildSelect n e (indentStr e) (indentStr (e + 1))).data := by
  by_cases ht : n.table = ""
  · simp only [buildSelect, ht, if_pos]
    simp only [String.data_append]
    exact SLC_prefix_pads (fun c hc => mem_indentStr hc) (fun c hc => mem_indentStr hc)
      (SLC_refl _ _)
  · rw [buildSelect_shape n d _ _ ht, buildSelect_shape n e _ _ ht]
    have hob : ∀ m, SLC m
        ((if n.orderBy.isEmpty then "" else if orderByCols n.orderBy = "" then ""
          else "\n" ++ indentStr d ++ "ORDER BY " ++ orderByCols n.orderBy) : String).data
        ((if n.orderBy.isEmpty then "" else if orderByCols n.orderBy = "" then ""
          else "\n" ++ indentStr e ++ "ORDER BY " ++ orderByCols n.orderBy) : String).data := by
      intro m
      by_cases h1 : n.orderBy.isEmpty
      · rw [if_pos h1, if_pos h1]; exact SLC_refl _ _
      · rw [if_neg h1, if_neg h1]
        by_cases h2 : orderByCols n.orderBy = ""
        · rw [if_pos h2, if_pos h2]; exact SLC_refl _ _
        · rw [if_neg h2, if_neg h2]
          simp only [String.data_append, List.append_assoc, List.cons_append,
            List.nil_append]
          exact SLC_nl_pads_cont (fun c hc => mem_indentStr hc)
            (fun c hc => mem_indentStr hc) (SLC_refl _ _) _
    have hlim : ∀ m, SLC m
        ((if n.limit = "" then "" else "\n" ++ indentStr d ++ "LIMIT " ++ n.limit) : String).data
        ((if n.limit = "" then "" else "\n" ++ indentStr e ++ "LIMIT " ++ n.limit) : String).data := by
      intro m
      by_cases h1 : n.limit = ""
      · rw [if_pos h1, if_pos h1]; exact SLC_refl _ _
      · rw [if_neg h1, if_neg h1]
        simp only [String.data_append, List.append_assoc, List.cons_append,
          List.nil_append]
        exact SLC_nl_pads_cont (fun c hc => mem_indentStr hc)
          (fun c hc => mem_indentStr hc) (SLC_refl _ _) _
    simp only [String.data_append, List.append_assoc, List.cons_append, List.nil_append]
    refine SLC_cons ?_
    refine SLC_cons ?_
    refine SLC_cons ?_
    refine SLC_cons ?_
    refine SLC_cons ?_
    refine SLC_cons ?_
    refine SLC_cons ?_
    refine SLC_append (SLC_refl _ _) ?_
    refine SLC_cons ?_
    refine SLC_prefix_pads (fun c hc => mem_indentStr hc)
      (fun c hc => mem_indentStr hc) ?_
    refine SLC_cons ?_
    refine SLC_cons ?_
    refine SLC_cons ?_
    refine SLC_cons ?_
    refine SLC_cons ?_
    refine SLC_append (SLC_refl _ _) ?_
    refine SLC_append (renderJoins_SLC d e n.joins _) ?_
    refine SLC_append (whereClause_SLC n.conditions n.subQueries d e IH _) ?_
    refine SLC_append (hob _) ?_
    refine SLC_append (hlim _) ?_
    exact SLC_refl _ _

theorem update_SLC (n : QueryNode) (d e : Nat)
    (IH : ∀ sid sub, (sid, sub) ∈ n.subQueries →
      SLC true (buildSQL sub (d + 2)).data (buildSQL sub (e + 2)).data) :
    SLC true (buildUpdate n d (indentStr d) (indentStr (d + 1))).data
             (buildUpdate n e (indentStr e) (indentStr (e + 1))).data := by
  simp only [buildUpdate]
  by_cases ht : n.table = ""
  · rw [if_pos ht, if_pos ht]
    simp only [String.data_append]
    exact SLC_prefix_pads (fun c hc => mem_indentStr hc) (fun c hc => mem_indentStr hc)
      (SLC_refl _ _)
  · rw [if_neg ht, if_neg ht]
    by_cases hf : (n.pairs.filter (fun p => p.column != "")).isEmpty
    · rw [if_pos hf, if_pos hf]
      simp only [String.data_append]
      exact SLC_prefix_pads (fun c hc => mem_indentStr hc)
        (fun c hc => mem_indentStr hc) (SLC_refl _ _)
    · rw [if_neg hf, if_neg hf]
      simp only [String.data_append, List.append_assoc, List.cons_append,
        List.nil_append]
      refine SLC_cons ?_
      refine SLC_cons ?_
      refine SLC_cons ?_
      refine SLC_cons ?_
      refine SLC_cons ?_
      refine SLC_cons ?_
      refine SLC_cons ?_
      refine SLC_append (SLC_refl _ _) ?_
      refine SLC_cons ?_
      refine SLC_prefix_pads (fun c hc => mem_indentStr hc)
        (fun c hc => mem_indentStr hc) ?_
      refine SLC_cons ?_
      refine SLC_cons ?_
      refine SLC_cons ?_
      refine SLC_cons ?_
      refine SLC_append (sets_SLC n.pairs d e) ?_
      refine SLC_append (whereClause_SLC n.conditions n.subQueries d e IH _) ?_
      exact SLC_refl _ _

theorem delete_SLC (n : QueryNode) (d e : Nat)
    (IH : ∀ sid sub, (sid, sub) ∈ n.subQueries →
      SLC true (buildSQL sub (d + 2)).data (buildSQL sub (e + 2)).data) :
    SLC true (buildDelete n d (indentStr d) (indentStr (d + 1))).data
             (buildDelete n e (indentStr e) (indentStr (e + 1))).data := by
  simp only [buildDelete]
  by_cases ht : n.table = ""
  · rw [if_pos ht, if_pos ht]
    simp only [String.data_append]
    exact SLC_prefix_pads (fun c hc => mem_indentStr hc) (fun c hc => mem_indentStr hc)
      (SLC_refl _ _)
  · rw [if_neg ht, if_neg ht]
    simp only [String.data_append, List.append_assoc, List.cons_append, List.nil_append]
    refine SLC_cons ?_
    refine SLC_cons ?_
    refine SLC_cons ?_
    refine SLC_cons ?_
    refine SLC_cons ?_
    refine SLC_cons ?_
    refine SLC_cons ?_
    refine SLC_cons ?_
    refine SLC_cons ?_
    refine SLC_cons ?_
    refine SLC_cons ?_
    refine SLC_cons ?_
    refine SLC_append (SLC_refl _ _) ?_
    refine SLC_append (whereClause_SLC n.conditions n.subQueries d e IH _) ?_
    exact SLC_refl _ _

theorem sizeOf_pair_mem_lt {sid : String} {sub : QueryNode}
    {l : List (String × QueryNode)} (h : (sid, sub) ∈ l) : sizeOf sub < sizeOf l := by
  induction l with
  | nil => cases h
  | cons p rest ih =>
    rcases List.mem_cons.mp h with h | h
    · rw [← h]
      simp
      omega
    · have := ih h
      simp
      omega

theorem buildSQL_SLC_all : ∀ (N : Nat) (n : QueryNode), sizeOf n ≤ N →
    ∀ d e, SLC true (buildSQL n d).data (buildSQL n e).data := by
  intro N
  induction N with
  | zero =>
    intro n hn d e
    exfalso
    cases n
    simp at hn
  | succ N ihN =>
    intro n hn d e
    have IHsub : ∀ sid sub, (sid, sub) ∈ n.subQueries →
        SLC true (buildSQL sub (d + 2)).data (buildSQL sub (e + 2)).data := by
      intro sid sub hmem
      refine ihN sub ?_ (d + 2) (e + 2)
      have h1 := sizeOf_pair_mem_lt hmem
      have h2 := sizeOf_subQueries_lt n
      omega
    simp only [buildSQL]
    cases hop : n.operation with
    | SELECT => exact select_SLC n d e IHsub
    | INSERT => exact SLC_refl _ _
    | UPDATE => exact update_SLC n d e IHsub
    | DELETE => exact delete_SLC n d e IHsub

theorem splitNlCh_stripLS (cs : List Char) :
    splitNlCh (stripLS true cs)
      = (splitNlCh cs).map (List.dropWhile (fun c => c = ' '))
    ∧ ∀ l ls, splitNlCh cs = l :: ls →
      splitNlCh (stripLS false cs)
        = l :: ls.map (List.dropWhile (fun c => c = ' ')) := by
  induction cs with
  | nil =>
    constructor
    · rfl
    · intro l ls h
      rw [show splitNlCh [] = [[]] from rfl] at h
      cases h
      rfl
  | cons c r ih =>
    obtain ⟨ih1, ih2⟩ := ih
    obtain ⟨l, ls, hls⟩ : ∃ l ls, splitNlCh r = l :: ls := by
      cases h : splitNlCh r with
      | nil => exact absurd h (splitNlCh_ne_nil r)
      | cons l ls => exact ⟨l, ls, rfl⟩
    by_cases h1 : c = '\n'
    · subst h1
      constructor
      · rw [stripLS_nl, show ∀ x, splitNlCh ('\n' :: x) = [] :: splitNlCh x
          from fun x => rfl, show splitNlCh ('\n' :: r) = [] :: splitNlCh r from rfl,
          ih1, List.map_cons]
        rfl
      · intro l0 ls0 h
        rw [show splitNlCh ('\n' :: r) = [] :: splitNlCh r from rfl] at h
        cases h
        rw [show stripLS false ('\n' :: r) = '\n' :: stripLS true r from stripLS_nl false r,
          show ∀ x, splitNlCh ('\n' :: x) = [] :: splitNlCh x from fun x => rfl, ih1]
    · by_cases h2 : c = ' '
      · subst h2
        have hsp : splitNlCh (' ' :: r) = (' ' :: l) :: ls := by
          simp [splitNlCh, hls]
        constructor
        · rw [stripLS_space_true, ih1, hsp, hls]
          simp only [List.map_cons]
          rfl
        · intro l0 ls0 h
          rw [hsp] at h
          cases h
          rw [stripLS_space_false]
          have hr := ih2 l ls hls
          rw [show ∀ x, splitNlCh (' ' :: x)
              = (match splitNlCh x with
                | l :: ls => (' ' :: l) :: ls
                | [] => [[' ']]) from fun x => by simp [splitNlCh], hr]
      · have hsp : splitNlCh (c :: r) = (c :: l) :: ls := by
          simp [splitNlCh, h1, hls]
        have hstep : ∀ x, splitNlCh (c :: x)
            = (match splitNlCh x with
              | l :: ls => (c :: l) :: ls
              | [] => [[c]]) := fun x => by simp [splitNlCh, h1]
        have hdw : List.dropWhile (fun x => x = ' ') (c :: l) = c :: l := by
          simp [List.dropWhile, h2]
        constructor
        · rw [stripLS_other h1 h2, hstep, ih2 l ls hls, hsp]
          simp only [List.map_cons, hdw]
        · intro l0 ls0 h
          rw [hsp] at h
          cases h
          rw [stripLS_other h1 h2, hstep, ih2 l ls hls]

theorem strippedLines_eq_of_stripLS {s t : String}
    (h : stripLS true s.data = stripLS true t.data) :
    strippedLines s = strippedLines t := by
  have e : ∀ u : String, strippedLines u
      = ((splitNlCh u.data).map (List.dropWhile (fun c => c = ' '))).map String.mk := by
    intro u
    simp only [strippedLines, splitNl, List.map_map]
    rfl
  rw [e s, e t, ← (splitNlCh_stripLS s.data).1, ← (splitNlCh_stripLS t.data).1, h]

/-- C8: compiling the same node at depth 0 and at depth 2 changes only the
leading whitespace of the lines: splitting both outputs on newlines and
stripping the leading spaces of every line yields the same sequence of
lines, so every keyword and value token is unchanged. -/
theorem depth_changes_only_indentation (n : QueryNode) :
    strippedLines (buildSQL n 0) = strippedLines (buildSQL n 2) :=
  strippedLines_eq_of_stripLS
    (buildSQL_SLC_all (sizeOf n) n (Nat.le_refl _) 0 2).1

end SqlForge
